import Mathlib

/-!
Verification of the constraint-solving pipeline of a 2D rigid-body physics
engine (contact solver and distance/rope/wheel/pulley joints).

The development shallowly embeds the solver routines:

* `b2_contact_solver.ts`: `b2ContactSolver.Initialize`,
  `InitializeVelocityConstraints` (per-point setup and block-solver
  preparation), `SolveVelocityConstraints`, `StoreImpulses`,
  `SolvePositionConstraints`, `SolveTOIPositionConstraints`,
  `b2PositionSolverManifold.Initialize`;
* `b2_rope_joint.ts`, `b2_distance_joint.ts`, the pulley joint and the wheel
  joint: `InitVelocityConstraints`, `SolveVelocityConstraints`,
  `SolvePositionConstraints`.

Pure arithmetic is carried out over an arbitrary linear ordered field so the
same definitions serve both exact rational evaluation (for concrete
counterexamples and witnesses) and the real-valued statements used where the
source computes square roots and trigonometric functions.

The vector/matrix helpers and the tuning constants live in `b2_math.ts` and
`b2_common.ts`, which are not part of the sources available here; those
definitions are marked `Modelled from the spec:` and follow the standard
formulas the specification relies on (dot/cross products, clamping, 2x2
matrix inversion, the `linearSlop`-family constants).
-/

/-- Modelled from the spec: 2-d vector of `b2_math.ts` (`b2Vec2`), a pair of
coordinates. -/
structure b2Vec2 (α : Type) where
  x : α
  y : α
deriving DecidableEq, Repr

instance {α : Type} [Add α] : Add (b2Vec2 α) where
  add a b := ⟨a.x + b.x, a.y + b.y⟩

instance {α : Type} [Sub α] : Sub (b2Vec2 α) where
  sub a b := ⟨a.x - b.x, a.y - b.y⟩

instance {α : Type} [Neg α] : Neg (b2Vec2 α) where
  neg a := ⟨-a.x, -a.y⟩

instance {α : Type} [Mul α] : SMul α (b2Vec2 α) where
  smul s v := ⟨s * v.x, s * v.y⟩

/-- Modelled from the spec: zero vector (`b2Vec2.SetZero`). -/
def b2Vec2.zero (α : Type) [Zero α] : b2Vec2 α := ⟨0, 0⟩

/-- Modelled from the spec: dot product (`b2Vec2.Dot`). -/
def b2Dot {α : Type} [Mul α] [Add α] (a b : b2Vec2 α) : α :=
  a.x * b.x + a.y * b.y

/-- Modelled from the spec: 2-d cross product of two vectors
(`b2Vec2.Cross`), a scalar. -/
def b2CrossVV {α : Type} [Mul α] [Sub α] (a b : b2Vec2 α) : α :=
  a.x * b.y - a.y * b.x

/-- Modelled from the spec: cross product of a scalar with a vector
(`b2Cross(s, v) = (-s*v.y, s*v.x)`). -/
def b2CrossSV {α : Type} [Mul α] [Neg α] (s : α) (v : b2Vec2 α) : b2Vec2 α :=
  ⟨-s * v.y, s * v.x⟩

/-- Modelled from the spec: cross product of a vector with the scalar one
(`b2Vec2.CrossVec2One`), used to derive the tangent from the normal. -/
def b2CrossVOne {α : Type} [Neg α] (v : b2Vec2 α) : b2Vec2 α :=
  ⟨v.y, -v.x⟩

/-- Modelled from the spec: `b2Vec2.AddCrossScalarVec2 v s r = v + s × r`,
the velocity of a point at arm `r` on a body with linear velocity `v` and
angular velocity `s`. -/
def b2AddCrossSV {α : Type} [Mul α] [Neg α] [Add α] (v : b2Vec2 α) (s : α)
    (r : b2Vec2 α) : b2Vec2 α :=
  v + b2CrossSV s r

/-- Modelled from the spec: scalar clamping (`b2Clamp`), restricting a value
to the closed interval `[lo, hi]`. -/
def b2Clamp {α : Type} [LinearOrder α] (v lo hi : α) : α :=
  min (max v lo) hi

/-- Modelled from the spec: midpoint of two points (`b2Vec2.Mid`). -/
def b2Mid {α : Type} [Field α] (a b : b2Vec2 α) : b2Vec2 α :=
  ⟨(a.x + b.x) / 2, (a.y + b.y) / 2⟩

/-- Modelled from the spec: column-major 2x2 matrix of `b2_math.ts`
(`b2Mat22`); `ex` and `ey` are the columns. -/
structure b2Mat22 (α : Type) where
  ex : b2Vec2 α
  ey : b2Vec2 α
deriving DecidableEq, Repr

/-- Modelled from the spec: zero matrix (`b2Mat22.SetZero`). -/
def b2Mat22.zero (α : Type) [Zero α] : b2Mat22 α := ⟨⟨0, 0⟩, ⟨0, 0⟩⟩

/-- Modelled from the spec: matrix-vector product
(`b2Mat22.MultiplyVec2`). -/
def b2Mat22.mulVec {α : Type} [Mul α] [Add α] (m : b2Mat22 α)
    (v : b2Vec2 α) : b2Vec2 α :=
  ⟨m.ex.x * v.x + m.ey.x * v.y, m.ex.y * v.x + m.ey.y * v.y⟩

/-- Modelled from the spec: safe 2x2 matrix inversion
(`b2Mat22.GetInverse`): the determinant's reciprocal is only taken when the
determinant is nonzero, otherwise the zero factor yields the zero matrix. -/
def b2Mat22.GetInverse {α : Type} [Field α] [DecidableEq α]
    (m : b2Mat22 α) : b2Mat22 α :=
  let a := m.ex.x
  let b := m.ey.x
  let c := m.ex.y
  let d := m.ey.y
  let det0 := a * d - b * c
  let det := if det0 ≠ 0 then 1 / det0 else det0
  ⟨⟨det * d, -det * c⟩, ⟨-det * b, det * a⟩⟩

/-- Modelled from the spec: rotation of `b2_math.ts` (`b2Rot`), stored as
sine and cosine. -/
structure b2Rot (α : Type) where
  s : α
  c : α
deriving DecidableEq, Repr

/-- Modelled from the spec: rotating a vector (`b2Rot.MultiplyVec2`). -/
def b2Rot.mulVec {α : Type} [Mul α] [Add α] [Sub α] (q : b2Rot α)
    (v : b2Vec2 α) : b2Vec2 α :=
  ⟨q.c * v.x - q.s * v.y, q.s * v.x + q.c * v.y⟩

/-- Modelled from the spec: building a rotation from an angle
(`b2Rot.Set`), taking the sine and cosine of the angle. -/
noncomputable def b2Rot.ofAngle (a : ℝ) : b2Rot ℝ :=
  ⟨Real.sin a, Real.cos a⟩

/-- Modelled from the spec: rigid transform of `b2_math.ts`
(`b2Transform`): a rotation followed by a translation. -/
structure b2Transform (α : Type) where
  p : b2Vec2 α
  q : b2Rot α
deriving DecidableEq, Repr

/-- Modelled from the spec: applying a transform to a point
(`b2Transform.MultiplyVec2`). -/
def b2Transform.mulVec {α : Type} [Mul α] [Add α] [Sub α] (xf : b2Transform α)
    (v : b2Vec2 α) : b2Vec2 α :=
  b2Rot.mulVec xf.q v + xf.p

/-- Modelled from the spec: Euclidean length of a vector
(`b2Vec2.Length`). -/
noncomputable def b2Vec2.length (v : b2Vec2 ℝ) : ℝ :=
  Real.sqrt (v.x * v.x + v.y * v.y)

/-- Modelled from the spec: in-place normalization (`b2Vec2.Normalize`)
returning the normalized vector together with the original length; a
vector of (near-)zero length is left unchanged. -/
noncomputable def b2Vec2.normalizeRes (v : b2Vec2 ℝ) : b2Vec2 ℝ × ℝ :=
  let len := v.length
  if 0 < len then ((1 / len) • v, len) else (v, len)

/-- Modelled from the spec: `b2_linearSlop`, the collision/constraint
tolerance of `b2_common.ts`. -/
noncomputable def b2_linearSlop : ℝ := 0.005

/-- Modelled from the spec: `b2_maxLinearCorrection`, the largest position
correction applied in one sub-step (`b2_common.ts`). -/
noncomputable def b2_maxLinearCorrection : ℝ := 0.2

/-- Modelled from the spec: `b2_baumgarte`, the position-correction factor
of the regular solver (`b2_common.ts`). -/
noncomputable def b2_baumgarte : ℝ := 0.2

/-- Modelled from the spec: `b2_toiBaumgarte`, the position-correction
factor of the TOI solver (`b2_common.ts`). -/
noncomputable def b2_toiBaumgarte : ℝ := 0.75

/-- The step parameters consumed by the solvers (`b2TimeStep` of
`b2_time_step.ts`): time step, its inverse, the ratio of the current to the
previous step used to rescale warm-start impulses, and the warm-starting
flag. -/
structure b2TimeStep (α : Type) where
  dt : α
  inv_dt : α
  dtRatioV : α
  warmStarting : Bool
deriving DecidableEq, Repr

/-- Per-body linear and angular velocity (`b2Velocity`). -/
structure b2Velocity (α : Type) where
  v : b2Vec2 α
  w : α
deriving DecidableEq, Repr

/-- Per-body center of mass and angle (`b2Position`). -/
structure b2Position (α : Type) where
  c : b2Vec2 α
  a : α
deriving DecidableEq, Repr

/-- One contact point of the velocity constraint
(`b2VelocityConstraintPoint` of `b2_contact_solver.ts`). -/
structure b2VelocityConstraintPoint (α : Type) where
  rA : b2Vec2 α
  rB : b2Vec2 α
  normalImpulse : α
  tangentImpulse : α
  normalMass : α
  tangentMass : α
  velocityBias : α
deriving DecidableEq, Repr

/-- Per-contact velocity-solver record (`b2ContactVelocityConstraint`):
up to two points, the world normal and tangent, the 2x2 block matrix `K`
and its inverse `normalMass`, body solver indices, body mass data and the
material coefficients. -/
structure b2ContactVelocityConstraint (α : Type) where
  points : Fin 2 → b2VelocityConstraintPoint α
  normal : b2Vec2 α
  tangent : b2Vec2 α
  normalMass : b2Mat22 α
  K : b2Mat22 α
  indexA : ℕ
  indexB : ℕ
  invMassA : α
  invMassB : α
  invIA : α
  invIB : α
  friction : α
  restitution : α
  threshold : α
  tangentSpeed : α
  pointCount : ℕ
  contactIndex : ℕ
deriving DecidableEq

/-- The normal-direction denominator `kNormal = mA + mB + iA·(rA×n)² +
iB·(rB×n)²` of `b2ContactSolver.InitializeVelocityConstraints`
(`b2_contact_solver.ts`, lines 389-392); the same formula serves the
tangent direction with the tangent in place of the normal. -/
def kDenom {α : Type} [Field α] (mA mB iA iB : α) (rA rB n : b2Vec2 α) : α :=
  mA + mB + iA * b2CrossVV rA n * b2CrossVV rA n
    + iB * b2CrossVV rB n * b2CrossVV rB n

/-- Per-point portion of `b2ContactSolver.InitializeVelocityConstraints`
(`b2_contact_solver.ts`, lines 383-417): compute the contact arms from the
world manifold point, the safe-inverted normal and tangent effective
masses, and the restitution velocity bias.  The accumulated impulses of
the pooled point are left as they are. -/
def initVelocityConstraintsPoint {α : Type} [LinearOrderedField α]
    (normal tangent worldPoint cA cB : b2Vec2 α) (mA mB iA iB : α)
    (vA : b2Vec2 α) (wA : α) (vB : b2Vec2 α) (wB : α)
    (restitution threshold : α) (prev : b2VelocityConstraintPoint α) :
    b2VelocityConstraintPoint α :=
  let rA := worldPoint - cA
  let rB := worldPoint - cB
  let kNormal := kDenom mA mB iA iB rA rB normal
  let nMass := if 0 < kNormal then 1 / kNormal else 0
  let kTangent := kDenom mA mB iA iB rA rB tangent
  let tMass := if 0 < kTangent then 1 / kTangent else 0
  let vRel := b2Dot normal (b2AddCrossSV vB wB rB - b2AddCrossSV vA wA rA)
  let bias := if vRel < -threshold then -restitution * vRel else 0
  { rA := rA, rB := rB, normalImpulse := prev.normalImpulse,
    tangentImpulse := prev.tangentImpulse, normalMass := nMass,
    tangentMass := tMass, velocityBias := bias }

/-- Entry `k11` of the block matrix (`b2_contact_solver.ts`, line 429). -/
def blockK11 {α : Type} [LinearOrderedField α]
    (vc : b2ContactVelocityConstraint α) : α :=
  vc.invMassA + vc.invMassB
    + vc.invIA * b2CrossVV (vc.points 0).rA vc.normal
      * b2CrossVV (vc.points 0).rA vc.normal
    + vc.invIB * b2CrossVV (vc.points 0).rB vc.normal
      * b2CrossVV (vc.points 0).rB vc.normal

/-- Entry `k22` of the block matrix (`b2_contact_solver.ts`, line 430). -/
def blockK22 {α : Type} [LinearOrderedField α]
    (vc : b2ContactVelocityConstraint α) : α :=
  vc.invMassA + vc.invMassB
    + vc.invIA * b2CrossVV (vc.points 1).rA vc.normal
      * b2CrossVV (vc.points 1).rA vc.normal
    + vc.invIB * b2CrossVV (vc.points 1).rB vc.normal
      * b2CrossVV (vc.points 1).rB vc.normal

/-- Entry `k12` of the block matrix (`b2_contact_solver.ts`, line 431). -/
def blockK12 {α : Type} [LinearOrderedField α]
    (vc : b2ContactVelocityConstraint α) : α :=
  vc.invMassA + vc.invMassB
    + vc.invIA * b2CrossVV (vc.points 0).rA vc.normal
      * b2CrossVV (vc.points 1).rA vc.normal
    + vc.invIB * b2CrossVV (vc.points 0).rB vc.normal
      * b2CrossVV (vc.points 1).rB vc.normal

/-- The block matrix `K` built from the two normal arms
(`b2_contact_solver.ts`, lines 436-437: `ex = (k11, k12)`,
`ey = (k12, k22)`). -/
def blockKMat {α : Type} [LinearOrderedField α]
    (vc : b2ContactVelocityConstraint α) : b2Mat22 α :=
  ⟨⟨blockK11 vc, blockK12 vc⟩, ⟨blockK12 vc, blockK22 vc⟩⟩

/-- Block-solver preparation of
`b2ContactSolver.InitializeVelocityConstraints` (`b2_contact_solver.ts`,
lines 419-444): with exactly two points and the global block-solve flag
set, build the coupling matrix `K` from the two normal arms and invert it
into `normalMass` only when the condition number is acceptable
(`k11 * k11 < 1000 * det K`); otherwise force the contact to a single
point. -/
def initVelocityConstraintsBlockPrep {α : Type} [LinearOrderedField α]
    (blockSolve : Bool) (vc : b2ContactVelocityConstraint α) :
    b2ContactVelocityConstraint α :=
  if vc.pointCount = 2 ∧ blockSolve then
    let k11 := blockK11 vc
    let k22 := blockK22 vc
    let k12 := blockK12 vc
    if k11 * k11 < 1000 * (k11 * k22 - k12 * k12) then
      { vc with K := blockKMat vc, normalMass := (blockKMat vc).GetInverse }
    else
      { vc with pointCount := 1 }
  else vc

/-- Solver state of the wheel joint (`b2WheelJoint`): local anchors and
axes, body-derived mass data (already pulled from the two bodies), the
spring coefficients, limit/motor switches, and the accumulated impulses
and effective masses the solver maintains. -/
structure b2WheelJoint where
  localAnchorA : b2Vec2 ℝ
  localAnchorB : b2Vec2 ℝ
  localXAxisA : b2Vec2 ℝ
  localYAxisA : b2Vec2 ℝ
  localCenterA : b2Vec2 ℝ
  localCenterB : b2Vec2 ℝ
  indexA : ℕ
  indexB : ℕ
  invMassA : ℝ
  invMassB : ℝ
  invIA : ℝ
  invIB : ℝ
  stiffness : ℝ
  damping : ℝ
  enableLimit : Bool
  enableMotor : Bool
  impulse : ℝ
  springImpulse : ℝ
  motorImpulse : ℝ
  lowerImpulse : ℝ
  upperImpulse : ℝ
  translation : ℝ
  mass : ℝ
  axialMass : ℝ
  springMass : ℝ
  motorMass : ℝ
  bias : ℝ
  gamma : ℝ
  ax : b2Vec2 ℝ
  ay : b2Vec2 ℝ
  sAx : ℝ
  sBx : ℝ
  sAy : ℝ
  sBy : ℝ

/-- The world arm of the wheel joint's body A anchor
(the `rA` of `b2WheelJoint.InitVelocityConstraints`). -/
noncomputable def wheelInitRA (j : b2WheelJoint)
    (positions : ℕ → b2Position ℝ) : b2Vec2 ℝ :=
  (b2Rot.ofAngle (positions j.indexA).a).mulVec
    (j.localAnchorA - j.localCenterA)

/-- The world arm of the wheel joint's body B anchor. -/
noncomputable def wheelInitRB (j : b2WheelJoint)
    (positions : ℕ → b2Position ℝ) : b2Vec2 ℝ :=
  (b2Rot.ofAngle (positions j.indexB).a).mulVec
    (j.localAnchorB - j.localCenterB)

/-- The wheel joint's separation vector `d = cB + rB - cA - rA`. -/
noncomputable def wheelInitD (j : b2WheelJoint)
    (positions : ℕ → b2Position ℝ) : b2Vec2 ℝ :=
  ((positions j.indexB).c + wheelInitRB j positions)
    - ((positions j.indexA).c + wheelInitRA j positions)

/-- The wheel joint's world perpendicular axis `ay`. -/
noncomputable def wheelInitAyAxis (j : b2WheelJoint)
    (positions : ℕ → b2Position ℝ) : b2Vec2 ℝ :=
  (b2Rot.ofAngle (positions j.indexA).a).mulVec j.localYAxisA

/-- The wheel joint's world prismatic axis `ax`. -/
noncomputable def wheelInitAxAxis (j : b2WheelJoint)
    (positions : ℕ → b2Position ℝ) : b2Vec2 ℝ :=
  (b2Rot.ofAngle (positions j.indexA).a).mulVec j.localXAxisA

/-- The perpendicular-constraint arm `sAy = (d + rA) × ay`. -/
noncomputable def wheelInitSAy (j : b2WheelJoint)
    (positions : ℕ → b2Position ℝ) : ℝ :=
  b2CrossVV (wheelInitD j positions + wheelInitRA j positions)
    (wheelInitAyAxis j positions)

/-- The perpendicular-constraint arm `sBy = rB × ay`. -/
noncomputable def wheelInitSBy (j : b2WheelJoint)
    (positions : ℕ → b2Position ℝ) : ℝ :=
  b2CrossVV (wheelInitRB j positions) (wheelInitAyAxis j positions)

/-- The axial arm `sAx = (d + rA) × ax`. -/
noncomputable def wheelInitSAx (j : b2WheelJoint)
    (positions : ℕ → b2Position ℝ) : ℝ :=
  b2CrossVV (wheelInitD j positions + wheelInitRA j positions)
    (wheelInitAxAxis j positions)

/-- The axial arm `sBx = rB × ax`. -/
noncomputable def wheelInitSBx (j : b2WheelJoint)
    (positions : ℕ → b2Position ℝ) : ℝ :=
  b2CrossVV (wheelInitRB j positions) (wheelInitAxAxis j positions)

/-- The denominator of the wheel joint's perpendicular effective mass
(`b2_wheel_joint` source, the `m_mass` sum). -/
noncomputable def wheelInitMassDenom (j : b2WheelJoint)
    (positions : ℕ → b2Position ℝ) : ℝ :=
  j.invMassA + j.invMassB
    + j.invIA * wheelInitSAy j positions * wheelInitSAy j positions
    + j.invIB * wheelInitSBy j positions * wheelInitSBy j positions

/-- The denominator of the wheel joint's axial effective mass (the
`invMass` sum of the source). -/
noncomputable def wheelInitAxialDenom (j : b2WheelJoint)
    (positions : ℕ → b2Position ℝ) : ℝ :=
  j.invMassA + j.invMassB
    + j.invIA * wheelInitSAx j positions * wheelInitSAx j positions
    + j.invIB * wheelInitSBx j positions * wheelInitSBx j positions

/-- `b2WheelJoint.InitVelocityConstraints`: compute the perpendicular and
axial arms and their safe-inverted effective masses, the spring
coefficients with safely inverted `gamma` and spring mass, the motor mass,
then warm-start (scaling all impulses by `dtRatio`) or zero the impulses.
Returns the updated joint and velocity array. -/
noncomputable def wheelInitVelocityConstraints (j : b2WheelJoint)
    (positions : ℕ → b2Position ℝ) (velocities : ℕ → b2Velocity ℝ)
    (step : b2TimeStep ℝ) : b2WheelJoint × (ℕ → b2Velocity ℝ) :=
  let mA := j.invMassA
  let mB := j.invMassB
  let iA := j.invIA
  let iB := j.invIB
  let vA := (velocities j.indexA).v
  let wA := (velocities j.indexA).w
  let vB := (velocities j.indexB).v
  let wB := (velocities j.indexB).w
  let d := wheelInitD j positions
  let ay := wheelInitAyAxis j positions
  let sAy := wheelInitSAy j positions
  let sBy := wheelInitSBy j positions
  let mass0 := wheelInitMassDenom j positions
  let mass := if 0 < mass0 then 1 / mass0 else mass0
  let ax := wheelInitAxAxis j positions
  let sAx := wheelInitSAx j positions
  let sBx := wheelInitSBx j positions
  let invMass := wheelInitAxialDenom j positions
  let axialMass := if 0 < invMass then 1 / invMass else 0
  let springState :=
    if 0 < j.stiffness ∧ 0 < invMass then
      let C := b2Dot d ax
      let h := step.dt
      let gamma0 := h * (j.damping + h * j.stiffness)
      let gamma := if 0 < gamma0 then 1 / gamma0 else gamma0
      let bias := C * h * j.stiffness * gamma
      let springMass0 := invMass + gamma
      let springMass := if 0 < springMass0 then 1 / springMass0 else springMass0
      (springMass, bias, gamma, j.springImpulse)
    else
      ((0 : ℝ), (0 : ℝ), (0 : ℝ), (0 : ℝ))
  let springMass := springState.1
  let bias := springState.2.1
  let gamma := springState.2.2.1
  let springImpulse0 := springState.2.2.2
  let limitState :=
    if j.enableLimit then (b2Dot ax d, j.lowerImpulse, j.upperImpulse)
    else (j.translation, (0 : ℝ), (0 : ℝ))
  let translation := limitState.1
  let lowerImpulse0 := limitState.2.1
  let upperImpulse0 := limitState.2.2
  let motorState :=
    if j.enableMotor then
      let motorMass0 := iA + iB
      ((if 0 < motorMass0 then 1 / motorMass0 else motorMass0),
        j.motorImpulse)
    else ((0 : ℝ), (0 : ℝ))
  let motorMass := motorState.1
  let motorImpulse0 := motorState.2
  if step.warmStarting then
    let impulse := j.impulse * step.dtRatioV
    let springImpulse := springImpulse0 * step.dtRatioV
    let motorImpulse := motorImpulse0 * step.dtRatioV
    let axialImpulse := springImpulse + lowerImpulse0 - upperImpulse0
    let P := impulse • ay + axialImpulse • ax
    let LA := impulse * sAy + axialImpulse * sAx + motorImpulse
    let LB := impulse * sBy + axialImpulse * sBx + motorImpulse
    let vA' := vA - mA • P
    let wA' := wA - iA * LA
    let vB' := vB + mB • P
    let wB' := wB + iB * LB
    ({ j with
        impulse := impulse
        springImpulse := springImpulse
        motorImpulse := motorImpulse
        lowerImpulse := lowerImpulse0
        upperImpulse := upperImpulse0
        translation := translation
        mass := mass
        axialMass := axialMass
        springMass := springMass
        motorMass := motorMass
        bias := bias
        gamma := gamma
        ax := ax
        ay := ay
        sAx := sAx
        sBx := sBx
        sAy := sAy
        sBy := sBy },
      Function.update (Function.update velocities j.indexA ⟨vA', wA'⟩)
        j.indexB ⟨vB', wB'⟩)
  else
    ({ j with
        impulse := 0
        springImpulse := 0
        motorImpulse := 0
        lowerImpulse := 0
        upperImpulse := 0
        translation := translation
        mass := mass
        axialMass := axialMass
        springMass := springMass
        motorMass := motorMass
        bias := bias
        gamma := gamma
        ax := ax
        ay := ay
        sAx := sAx
        sBx := sBx
        sAy := sAy
        sBy := sBy },
      Function.update (Function.update velocities j.indexA ⟨vA, wA⟩)
        j.indexB ⟨vB, wB⟩)

/-- The mutable state threaded through one contact by
`b2ContactSolver.SolveVelocityConstraints`: the contact's points and the
two bodies' velocities read at the contact's solver indices. -/
structure SolveState (α : Type) where
  points : Fin 2 → b2VelocityConstraintPoint α
  vA : b2Vec2 α
  wA : α
  vB : b2Vec2 α
  wB : α

/-- The indices `0 ≤ j < pointCount` visited by the per-point loops of the
contact solver; at most two manifold points exist
(`b2_maxManifoldPoints`). -/
def pointsUpTo (n : ℕ) : List (Fin 2) :=
  if 2 ≤ n then [0, 1] else if 1 ≤ n then [0] else []

/-- Friction solve for one point
(`b2ContactSolver.SolveVelocityConstraints`, `b2_contact_solver.ts`, lines
539-568): the tangent impulse increment is clamped so the accumulated
tangent impulse stays within `± friction * normalImpulse`, using the
currently accumulated normal impulse; the increment is applied to the
body velocities. -/
def solveTangentPoint {α : Type} [LinearOrderedField α]
    (vc : b2ContactVelocityConstraint α) (j : Fin 2) (s : SolveState α) :
    SolveState α :=
  let vcp := s.points j
  let dv := b2AddCrossSV s.vB s.wB vcp.rB - b2AddCrossSV s.vA s.wA vcp.rA
  let vt := b2Dot dv vc.tangent - vc.tangentSpeed
  let lambda := vcp.tangentMass * (-vt)
  let maxFriction := vc.friction * vcp.normalImpulse
  let newImpulse := b2Clamp (vcp.tangentImpulse + lambda) (-maxFriction)
    maxFriction
  let lambda2 := newImpulse - vcp.tangentImpulse
  let P := lambda2 • vc.tangent
  { points := Function.update s.points j
      { vcp with tangentImpulse := newImpulse }
    vA := s.vA - vc.invMassA • P
    wA := s.wA - vc.invIA * b2CrossVV vcp.rA P
    vB := s.vB + vc.invMassB • P
    wB := s.wB + vc.invIB * b2CrossVV vcp.rB P }

/-- Normal solve for one point on the non-block path
(`b2_contact_solver.ts`, lines 572-600): projected Gauss-Seidel step with
the accumulated normal impulse clamped to be nonnegative. -/
def solveNormalPoint {α : Type} [LinearOrderedField α]
    (vc : b2ContactVelocityConstraint α) (j : Fin 2) (s : SolveState α) :
    SolveState α :=
  let vcp := s.points j
  let dv := b2AddCrossSV s.vB s.wB vcp.rB - b2AddCrossSV s.vA s.wA vcp.rA
  let vn := b2Dot dv vc.normal
  let lambda := -vcp.normalMass * (vn - vcp.velocityBias)
  let newImpulse := max (vcp.normalImpulse + lambda) 0
  let lambda2 := newImpulse - vcp.normalImpulse
  let P := lambda2 • vc.normal
  { points := Function.update s.points j
      { vcp with normalImpulse := newImpulse }
    vA := s.vA - vc.invMassA • P
    wA := s.wA - vc.invIA * b2CrossVV vcp.rA P
    vB := s.vB + vc.invMassB • P
    wB := s.wB + vc.invIB * b2CrossVV vcp.rB P }

/-- Application of an accepted block-solver solution `x`
(`b2_contact_solver.ts`, the repeated apply/accumulate blocks of lines
682-699, 729-746, 773-789, 815-833): the incremental impulse `x - a` is
applied to the velocities and `x` becomes the accumulated pair of normal
impulses. -/
def blockApply {α : Type} [LinearOrderedField α]
    (vc : b2ContactVelocityConstraint α) (s : SolveState α)
    (x : b2Vec2 α) : SolveState α :=
  let cp1 := s.points 0
  let cp2 := s.points 1
  let a : b2Vec2 α := ⟨cp1.normalImpulse, cp2.normalImpulse⟩
  let d := x - a
  let P1 := d.x • vc.normal
  let P2 := d.y • vc.normal
  let P12 := P1 + P2
  { points := Function.update
      (Function.update s.points 0 { cp1 with normalImpulse := x.x }) 1
      { cp2 with normalImpulse := x.y }
    vA := s.vA - vc.invMassA • P12
    wA := s.wA - vc.invIA * (b2CrossVV cp1.rA P1 + b2CrossVV cp2.rA P2)
    vB := s.vB + vc.invMassB • P12
    wB := s.wB + vc.invIB * (b2CrossVV cp1.rB P1 + b2CrossVV cp2.rB P2) }

/-- The two-point block solver (`b2_contact_solver.ts`, lines 601-838):
total enumeration of the four complementarity cases of the 2x2 LCP, taking
the first case whose tentative solution is admissible, and leaving the
state unchanged when none is ("no solution, give up"). -/
def solveNormalBlock {α : Type} [LinearOrderedField α]
    (vc : b2ContactVelocityConstraint α) (s : SolveState α) :
    SolveState α :=
  let cp1 := s.points 0
  let cp2 := s.points 1
  let a : b2Vec2 α := ⟨cp1.normalImpulse, cp2.normalImpulse⟩
  let dv1 := b2AddCrossSV s.vB s.wB cp1.rB - b2AddCrossSV s.vA s.wA cp1.rA
  let dv2 := b2AddCrossSV s.vB s.wB cp2.rB - b2AddCrossSV s.vA s.wA cp2.rA
  let vn1 := b2Dot dv1 vc.normal
  let vn2 := b2Dot dv2 vc.normal
  let b0 : b2Vec2 α := ⟨vn1 - cp1.velocityBias, vn2 - cp2.velocityBias⟩
  let b := b0 - vc.K.mulVec a
  let x1 := -(vc.normalMass.mulVec b)
  if 0 ≤ x1.x ∧ 0 ≤ x1.y then blockApply vc s x1
  else
    let x2x := -cp1.normalMass * b.x
    let vn2c := vc.K.ex.y * x2x + b.y
    if 0 ≤ x2x ∧ 0 ≤ vn2c then blockApply vc s ⟨x2x, 0⟩
    else
      let x3y := -cp2.normalMass * b.y
      let vn1c := vc.K.ey.x * x3y + b.x
      if 0 ≤ x3y ∧ 0 ≤ vn1c then blockApply vc s ⟨0, x3y⟩
      else if 0 ≤ b.x ∧ 0 ≤ b.y then blockApply vc s ⟨0, 0⟩
      else s

/-- One contact of `b2ContactSolver.SolveVelocityConstraints`
(`b2_contact_solver.ts`, lines 521-843): friction first for every point,
then the normal constraints through the per-point path (one point, or
block solving disabled) or the block solver; the two touched body
velocities are written back. -/
def solveOneVelocityConstraint {α : Type} [LinearOrderedField α]
    (blockSolve : Bool) (vc : b2ContactVelocityConstraint α)
    (velocities : ℕ → b2Velocity α) :
    b2ContactVelocityConstraint α × (ℕ → b2Velocity α) :=
  let s0 : SolveState α :=
    ⟨vc.points, (velocities vc.indexA).v, (velocities vc.indexA).w,
      (velocities vc.indexB).v, (velocities vc.indexB).w⟩
  let s1 := (pointsUpTo vc.pointCount).foldl
    (fun s j => solveTangentPoint vc j s) s0
  let s2 :=
    if vc.pointCount = 1 ∨ blockSolve = false then
      (pointsUpTo vc.pointCount).foldl
        (fun s j => solveNormalPoint vc j s) s1
    else solveNormalBlock vc s1
  ({ vc with points := s2.points },
    Function.update (Function.update velocities vc.indexA ⟨s2.vA, s2.wA⟩)
      vc.indexB ⟨s2.vB, s2.wB⟩)

/-- One full velocity-iteration pass
(`b2ContactSolver.SolveVelocityConstraints`): the contacts are processed
in order, each one reading the velocities already updated by its
predecessors (Gauss-Seidel). -/
def solveVelocityConstraintsPass {α : Type} [LinearOrderedField α]
    (blockSolve : Bool) :
    List (b2ContactVelocityConstraint α) → (ℕ → b2Velocity α) →
    List (b2ContactVelocityConstraint α) × (ℕ → b2Velocity α)
  | [], velocities => ([], velocities)
  | vc :: rest, velocities =>
    let r := solveOneVelocityConstraint blockSolve vc velocities
    let r2 := solveVelocityConstraintsPass blockSolve rest r.2
    (r.1 :: r2.1, r2.2)

/-- Manifold type (`b2ManifoldType` of `b2_collision.ts`). -/
inductive b2ManifoldType where
  | e_circles
  | e_faceA
  | e_faceB
deriving DecidableEq, Repr

/-- One manifold point (`b2ManifoldPoint` of `b2_collision.ts`): the local
contact point, the feature id used for warm-start correspondence, and the
accumulated impulses persisted across steps. -/
structure b2ManifoldPoint (α : Type) where
  localPoint : b2Vec2 α
  id : ℕ
  normalImpulse : α
  tangentImpulse : α
deriving DecidableEq, Repr

/-- A contact manifold (`b2Manifold` of `b2_collision.ts`): at most two
points with a shared local normal/point. -/
structure b2Manifold (α : Type) where
  mtype : b2ManifoldType
  localNormal : b2Vec2 α
  localPoint : b2Vec2 α
  points : Fin 2 → b2ManifoldPoint α
  pointCount : ℕ
deriving DecidableEq

/-- The data `b2ContactSolver.Initialize` pulls from one `b2Contact`, its
fixtures, shapes and bodies (`b2_contact_solver.ts`, lines 262-307):
material coefficients, body solver indices, inverse masses/inertias,
local centers of mass, shape radii and the manifold. -/
structure b2ContactData (α : Type) where
  friction : α
  restitution : α
  threshold : α
  tangentSpeed : α
  indexA : ℕ
  indexB : ℕ
  invMassA : α
  invMassB : α
  invIA : α
  invIB : α
  localCenterA : b2Vec2 α
  localCenterB : b2Vec2 α
  radiusA : α
  radiusB : α
  manifold : b2Manifold α
deriving DecidableEq

/-- Per-contact position-solver record (`b2ContactPositionConstraint` of
`b2_contact_solver.ts`): local-frame geometry re-transformed fresh at
every position sub-step. -/
structure b2ContactPositionConstraint (α : Type) where
  localPoints : Fin 2 → b2Vec2 α
  localNormal : b2Vec2 α
  localPoint : b2Vec2 α
  indexA : ℕ
  indexB : ℕ
  invMassA : α
  invMassB : α
  localCenterA : b2Vec2 α
  localCenterB : b2Vec2 α
  invIA : α
  invIB : α
  mtype : b2ManifoldType
  radiusA : α
  radiusB : α
  pointCount : ℕ

/-- Position-independent setup of one contact
(`b2ContactSolver.Initialize`, `b2_contact_solver.ts`, lines 262-328):
copy the contact/body data into the pooled velocity and position records;
per manifold point either warm-start the impulses scaled by `dtRatio` or
zero them.  Pooled state beyond `pointCount` keeps its previous
contents. -/
def initializeConstraint {α : Type} [LinearOrderedField α]
    (step : b2TimeStep α) (c : b2ContactData α) (contactIndex : ℕ)
    (oldVc : b2ContactVelocityConstraint α)
    (oldPc : b2ContactPositionConstraint α) :
    b2ContactVelocityConstraint α × b2ContactPositionConstraint α :=
  let pointCount := c.manifold.pointCount
  let vc : b2ContactVelocityConstraint α :=
    { points := fun j =>
        if j.val < pointCount then
          { rA := b2Vec2.zero α
            rB := b2Vec2.zero α
            normalImpulse :=
              if step.warmStarting then
                step.dtRatioV * (c.manifold.points j).normalImpulse
              else 0
            tangentImpulse :=
              if step.warmStarting then
                step.dtRatioV * (c.manifold.points j).tangentImpulse
              else 0
            normalMass := 0
            tangentMass := 0
            velocityBias := 0 }
        else oldVc.points j
      normal := oldVc.normal
      tangent := oldVc.tangent
      normalMass := b2Mat22.zero α
      K := b2Mat22.zero α
      indexA := c.indexA
      indexB := c.indexB
      invMassA := c.invMassA
      invMassB := c.invMassB
      invIA := c.invIA
      invIB := c.invIB
      friction := c.friction
      restitution := c.restitution
      threshold := c.threshold
      tangentSpeed := c.tangentSpeed
      pointCount := pointCount
      contactIndex := contactIndex }
  let pc : b2ContactPositionConstraint α :=
    { localPoints := fun j =>
        if j.val < pointCount then (c.manifold.points j).localPoint
        else oldPc.localPoints j
      localNormal := c.manifold.localNormal
      localPoint := c.manifold.localPoint
      indexA := c.indexA
      indexB := c.indexB
      invMassA := c.invMassA
      invMassB := c.invMassB
      localCenterA := c.localCenterA
      localCenterB := c.localCenterB
      invIA := c.invIA
      invIB := c.invIB
      mtype := c.manifold.mtype
      radiusA := c.radiusA
      radiusB := c.radiusB
      pointCount := pointCount }
  (vc, pc)

/-- `b2ContactSolver.StoreImpulses` for one contact
(`b2_contact_solver.ts`, lines 846-856): the accumulated impulses of the
first `vc.pointCount` points are copied back into the contact's manifold
for next-step warm starting. -/
def storeImpulsesOne {α : Type} (vc : b2ContactVelocityConstraint α)
    (m : b2Manifold α) : b2Manifold α :=
  { m with points := fun j =>
      if j.val < vc.pointCount then
        { m.points j with
            normalImpulse := (vc.points j).normalImpulse
            tangentImpulse := (vc.points j).tangentImpulse }
      else m.points j }

/-- `StoreImpulses` followed by the next step's `Initialize` on the same
contact: the contact's manifold is refreshed from the solver record, then
the fresh solver record is built from that manifold. -/
def storeThenInitialize {α : Type} [LinearOrderedField α]
    (step : b2TimeStep α) (vc : b2ContactVelocityConstraint α)
    (c : b2ContactData α) (contactIndex : ℕ)
    (oldVc : b2ContactVelocityConstraint α)
    (oldPc : b2ContactPositionConstraint α) :
    b2Manifold α × b2ContactVelocityConstraint α :=
  let m := storeImpulsesOne vc c.manifold
  (m, (initializeConstraint step { c with manifold := m } contactIndex
    oldVc oldPc).1)

/-- Solver state of the rope joint (`b2RopeJoint` of `b2_rope_joint.ts`):
local anchors, the maximum length, the current length and axis computed at
init, the accumulated impulse, and the body-derived mass data. -/
structure b2RopeJoint (α : Type) where
  localAnchorA : b2Vec2 α
  localAnchorB : b2Vec2 α
  maxLength : α
  length : α
  impulse : α
  indexA : ℕ
  indexB : ℕ
  u : b2Vec2 α
  rA : b2Vec2 α
  rB : b2Vec2 α
  localCenterA : b2Vec2 α
  localCenterB : b2Vec2 α
  invMassA : α
  invMassB : α
  invIA : α
  invIB : α
  mass : α

/-- The world arm of the rope joint's body A anchor
(`b2_rope_joint.ts`, lines 130-131). -/
noncomputable def ropeInitRA (j : b2RopeJoint ℝ)
    (positions : ℕ → b2Position ℝ) : b2Vec2 ℝ :=
  (b2Rot.ofAngle (positions j.indexA).a).mulVec
    (j.localAnchorA - j.localCenterA)

/-- The world arm of the rope joint's body B anchor
(`b2_rope_joint.ts`, lines 133-134). -/
noncomputable def ropeInitRB (j : b2RopeJoint ℝ)
    (positions : ℕ → b2Position ℝ) : b2Vec2 ℝ :=
  (b2Rot.ofAngle (positions j.indexB).a).mulVec
    (j.localAnchorB - j.localCenterB)

/-- The rope joint's raw (pre-normalization) axis `u = cB + rB - cA - rA`
(`b2_rope_joint.ts`, line 136). -/
noncomputable def ropeInitU (j : b2RopeJoint ℝ)
    (positions : ℕ → b2Position ℝ) : b2Vec2 ℝ :=
  ((positions j.indexB).c + ropeInitRB j positions)
    - (positions j.indexA).c - ropeInitRA j positions

/-- `b2RopeJoint.InitVelocityConstraints` (`b2_rope_joint.ts`, lines
106-176): compute the axis; when its length is at or below `linearSlop`
zero the axis, the effective mass and the accumulated impulse and return
early (velocities untouched); otherwise normalize, compute the safe
effective mass, and warm-start (scaling the impulse by `dtRatio`) or zero
the impulse. -/
noncomputable def ropeInitVelocityConstraints (j : b2RopeJoint ℝ)
    (positions : ℕ → b2Position ℝ) (velocities : ℕ → b2Velocity ℝ)
    (step : b2TimeStep ℝ) : b2RopeJoint ℝ × (ℕ → b2Velocity ℝ) :=
  let rA := ropeInitRA j positions
  let rB := ropeInitRB j positions
  let u := ropeInitU j positions
  let len := u.length
  if b2_linearSlop < len then
    let u' := (1 / len) • u
    let crA := b2CrossVV rA u'
    let crB := b2CrossVV rB u'
    let invMass := j.invMassA + j.invIA * crA * crA + j.invMassB
      + j.invIB * crB * crB
    let mass := if invMass ≠ 0 then 1 / invMass else 0
    if step.warmStarting then
      let impulse := j.impulse * step.dtRatioV
      let P := impulse • u'
      let vA := (velocities j.indexA).v - j.invMassA • P
      let wA := (velocities j.indexA).w - j.invIA * b2CrossVV rA P
      let vB := (velocities j.indexB).v + j.invMassB • P
      let wB := (velocities j.indexB).w + j.invIB * b2CrossVV rB P
      ({ j with
          u := u'
          rA := rA
          rB := rB
          length := len
          mass := mass
          impulse := impulse },
        Function.update (Function.update velocities j.indexA ⟨vA, wA⟩)
          j.indexB ⟨vB, wB⟩)
    else
      ({ j with
          u := u'
          rA := rA
          rB := rB
          length := len
          mass := mass
          impulse := 0 },
        Function.update (Function.update velocities j.indexA
          (velocities j.indexA)) j.indexB (velocities j.indexB))
  else
    ({ j with
        u := b2Vec2.zero ℝ
        rA := rA
        rB := rB
        length := len
        mass := 0
        impulse := 0 }, velocities)

/-- `b2RopeJoint.SolveVelocityConstraints` (`b2_rope_joint.ts`, lines
184-223): the predictive velocity error is solved and the accumulated
impulse is clamped from above by zero (`m_impulse = min(0, m_impulse +
impulse)`), so the rope only ever pulls; the difference of the clamped
accumulated impulses is the increment applied to the velocities. -/
def ropeSolveVelocityConstraints {α : Type} [LinearOrderedField α]
    (j : b2RopeJoint α) (velocities : ℕ → b2Velocity α)
    (step : b2TimeStep α) : b2RopeJoint α × (ℕ → b2Velocity α) :=
  let vA := (velocities j.indexA).v
  let wA := (velocities j.indexA).w
  let vB := (velocities j.indexB).v
  let wB := (velocities j.indexB).w
  let vpA := b2AddCrossSV vA wA j.rA
  let vpB := b2AddCrossSV vB wB j.rB
  let C := j.length - j.maxLength
  let Cdot0 := b2Dot j.u (vpB - vpA)
  let Cdot := if C < 0 then Cdot0 + step.inv_dt * C else Cdot0
  let impulse0 := -j.mass * Cdot
  let newImpulse := min 0 (j.impulse + impulse0)
  let impulse := newImpulse - j.impulse
  let P := impulse • j.u
  let vA' := vA - j.invMassA • P
  let wA' := wA - j.invIA * b2CrossVV j.rA P
  let vB' := vB + j.invMassB • P
  let wB' := wB + j.invIB * b2CrossVV j.rB P
  ({ j with impulse := newImpulse },
    Function.update (Function.update velocities j.indexA ⟨vA', wA'⟩)
      j.indexB ⟨vB', wB'⟩)

/-- Solver state of the distance joint (`b2DistanceJoint` of
`b2_distance_joint.ts`); `length` is the rest length, `stiffness` and
`damping` the soft-constraint coefficients. -/
structure b2DistanceJoint (α : Type) where
  stiffness : α
  damping : α
  bias : α
  localAnchorA : b2Vec2 α
  localAnchorB : b2Vec2 α
  gamma : α
  impulse : α
  length : α
  indexA : ℕ
  indexB : ℕ
  u : b2Vec2 α
  rA : b2Vec2 α
  rB : b2Vec2 α
  localCenterA : b2Vec2 α
  localCenterB : b2Vec2 α
  invMassA : α
  invMassB : α
  invIA : α
  invIB : α
  mass : α

/-- The world arm of the distance joint's body A anchor
(`b2_distance_joint.ts`, lines 220-221). -/
noncomputable def distanceInitRA (j : b2DistanceJoint ℝ)
    (positions : ℕ → b2Position ℝ) : b2Vec2 ℝ :=
  (b2Rot.ofAngle (positions j.indexA).a).mulVec
    (j.localAnchorA - j.localCenterA)

/-- The world arm of the distance joint's body B anchor
(`b2_distance_joint.ts`, lines 223-224). -/
noncomputable def distanceInitRB (j : b2DistanceJoint ℝ)
    (positions : ℕ → b2Position ℝ) : b2Vec2 ℝ :=
  (b2Rot.ofAngle (positions j.indexB).a).mulVec
    (j.localAnchorB - j.localCenterB)

/-- The distance joint's raw axis `u = cB + rB - cA - rA`
(`b2_distance_joint.ts`, lines 226-227). -/
noncomputable def distanceInitU (j : b2DistanceJoint ℝ)
    (positions : ℕ → b2Position ℝ) : b2Vec2 ℝ :=
  ((positions j.indexB).c + distanceInitRB j positions)
    - (positions j.indexA).c - distanceInitRA j positions

/-- `b2DistanceJoint.InitVelocityConstraints` (`b2_distance_joint.ts`,
lines 195-288): compute the axis, zeroing it (but nothing else) when its
length is at or below `linearSlop`; compute the effective mass with the
soft-constraint `gamma`/`bias` terms when `stiffness > 0`; warm-start
(scaling the accumulated impulse by `dtRatio`) or zero the impulse. -/
noncomputable def distanceInitVelocityConstraints (j : b2DistanceJoint ℝ)
    (positions : ℕ → b2Position ℝ) (velocities : ℕ → b2Velocity ℝ)
    (step : b2TimeStep ℝ) : b2DistanceJoint ℝ × (ℕ → b2Velocity ℝ) :=
  let rA := distanceInitRA j positions
  let rB := distanceInitRB j positions
  let u0 := distanceInitU j positions
  let len := u0.length
  let u := if b2_linearSlop < len then (1 / len) • u0 else b2Vec2.zero ℝ
  let crAu := b2CrossVV rA u
  let crBu := b2CrossVV rB u
  let invMass0 := j.invMassA + j.invIA * crAu * crAu + j.invMassB
    + j.invIB * crBu * crBu
  let soft :=
    if 0 < j.stiffness then
      let C := len - j.length
      let h := step.dt
      let gamma0 := h * (j.damping + h * j.stiffness)
      let gamma := if gamma0 ≠ 0 then 1 / gamma0 else 0
      let bias := C * h * j.stiffness * gamma
      let invMass := invMass0 + gamma
      (gamma, bias, if invMass ≠ 0 then 1 / invMass else 0)
    else
      ((0 : ℝ), (0 : ℝ), if invMass0 ≠ 0 then 1 / invMass0 else 0)
  let gamma := soft.1
  let bias := soft.2.1
  let mass := soft.2.2
  if step.warmStarting then
    let impulse := j.impulse * step.dtRatioV
    let P := impulse • u
    let vA := (velocities j.indexA).v - j.invMassA • P
    let wA := (velocities j.indexA).w - j.invIA * b2CrossVV rA P
    let vB := (velocities j.indexB).v + j.invMassB • P
    let wB := (velocities j.indexB).w + j.invIB * b2CrossVV rB P
    ({ j with
        u := u
        rA := rA
        rB := rB
        gamma := gamma
        bias := bias
        mass := mass
        impulse := impulse },
      Function.update (Function.update velocities j.indexA ⟨vA, wA⟩)
        j.indexB ⟨vB, wB⟩)
  else
    ({ j with
        u := u
        rA := rA
        rB := rB
        gamma := gamma
        bias := bias
        mass := mass
        impulse := 0 },
      Function.update (Function.update velocities j.indexA
        (velocities j.indexA)) j.indexB (velocities j.indexB))

/-- `b2DistanceJoint.SolvePositionConstraints` (`b2_distance_joint.ts`,
lines 332-381): soft constraints (`stiffness > 0`) return immediately with
`true` and touch nothing; otherwise the clamped length error is corrected
by nudging the positions directly, returning whether the error is within
`linearSlop`. -/
noncomputable def distanceSolvePositionConstraints (j : b2DistanceJoint ℝ)
    (positions : ℕ → b2Position ℝ) :
    b2DistanceJoint ℝ × (ℕ → b2Position ℝ) × Prop :=
  if 0 < j.stiffness then (j, positions, True)
  else
    let cA := (positions j.indexA).c
    let aA := (positions j.indexA).a
    let cB := (positions j.indexB).c
    let aB := (positions j.indexB).a
    let qA := b2Rot.ofAngle aA
    let qB := b2Rot.ofAngle aB
    let rA := qA.mulVec (j.localAnchorA - j.localCenterA)
    let rB := qB.mulVec (j.localAnchorB - j.localCenterB)
    let u0 := (cB + rB) - cA - rA
    let nr := u0.normalizeRes
    let u := nr.1
    let len := nr.2
    let C0 := len - j.length
    let C := b2Clamp C0 (-b2_maxLinearCorrection) b2_maxLinearCorrection
    let impulse := -j.mass * C
    let P := impulse • u
    let cA' := cA - j.invMassA • P
    let aA' := aA - j.invIA * b2CrossVV rA P
    let cB' := cB + j.invMassB • P
    let aB' := aB + j.invIB * b2CrossVV rB P
    ({ j with u := u, rA := rA, rB := rB },
      Function.update (Function.update positions j.indexA ⟨cA', aA'⟩)
        j.indexB ⟨cB', aB'⟩,
      |C| < b2_linearSlop)

/-- Solver state of the pulley joint (`b2PulleyJoint`): ground anchors,
local anchors, the pulley ratio, the accumulated impulse and body-derived
mass data. -/
structure b2PulleyJoint (α : Type) where
  groundAnchorA : b2Vec2 α
  groundAnchorB : b2Vec2 α
  lengthA : α
  lengthB : α
  localAnchorA : b2Vec2 α
  localAnchorB : b2Vec2 α
  constant : α
  ratioV : α
  impulse : α
  indexA : ℕ
  indexB : ℕ
  uA : b2Vec2 α
  uB : b2Vec2 α
  rA : b2Vec2 α
  rB : b2Vec2 α
  localCenterA : b2Vec2 α
  localCenterB : b2Vec2 α
  invMassA : α
  invMassB : α
  invIA : α
  invIB : α
  mass : α

/-- The world arm of the pulley joint's body A anchor. -/
noncomputable def pulleyInitRA (j : b2PulleyJoint ℝ)
    (positions : ℕ → b2Position ℝ) : b2Vec2 ℝ :=
  (b2Rot.ofAngle (positions j.indexA).a).mulVec
    (j.localAnchorA - j.localCenterA)

/-- The world arm of the pulley joint's body B anchor. -/
noncomputable def pulleyInitRB (j : b2PulleyJoint ℝ)
    (positions : ℕ → b2Position ℝ) : b2Vec2 ℝ :=
  (b2Rot.ofAngle (positions j.indexB).a).mulVec
    (j.localAnchorB - j.localCenterB)

/-- The pulley's raw A-side axis `uA = cA + rA - groundAnchorA`. -/
noncomputable def pulleyInitUA (j : b2PulleyJoint ℝ)
    (positions : ℕ → b2Position ℝ) : b2Vec2 ℝ :=
  ((positions j.indexA).c + pulleyInitRA j positions) - j.groundAnchorA

/-- The pulley's raw B-side axis `uB = cB + rB - groundAnchorB`. -/
noncomputable def pulleyInitUB (j : b2PulleyJoint ℝ)
    (positions : ℕ → b2Position ℝ) : b2Vec2 ℝ :=
  ((positions j.indexB).c + pulleyInitRB j positions) - j.groundAnchorB

/-- `b2PulleyJoint.InitVelocityConstraints` (the pulley-joint part of the
sources, lines 1206-1299 of the concatenated contact-solver file): each
pulley axis is normalized only when longer than `10 * linearSlop` and
zeroed otherwise; the combined effective mass `mA + ratio² * mB` is
safely inverted; warm-starting scales the accumulated impulse by
`dtRatio`, otherwise it is zeroed. -/
noncomputable def pulleyInitVelocityConstraints (j : b2PulleyJoint ℝ)
    (positions : ℕ → b2Position ℝ) (velocities : ℕ → b2Velocity ℝ)
    (step : b2TimeStep ℝ) : b2PulleyJoint ℝ × (ℕ → b2Velocity ℝ) :=
  let rA := pulleyInitRA j positions
  let rB := pulleyInitRB j positions
  let uA0 := pulleyInitUA j positions
  let uB0 := pulleyInitUB j positions
  let lenA := uA0.length
  let lenB := uB0.length
  let uA := if 10 * b2_linearSlop < lenA then (1 / lenA) • uA0
    else b2Vec2.zero ℝ
  let uB := if 10 * b2_linearSlop < lenB then (1 / lenB) • uB0
    else b2Vec2.zero ℝ
  let ruA := b2CrossVV rA uA
  let ruB := b2CrossVV rB uB
  let mA := j.invMassA + j.invIA * ruA * ruA
  let mB := j.invMassB + j.invIB * ruB * ruB
  let mass0 := mA + j.ratioV * j.ratioV * mB
  let mass := if 0 < mass0 then 1 / mass0 else mass0
  if step.warmStarting then
    let impulse := j.impulse * step.dtRatioV
    let PA := (-impulse) • uA
    let PB := (-j.ratioV * impulse) • uB
    let vA := (velocities j.indexA).v + j.invMassA • PA
    let wA := (velocities j.indexA).w + j.invIA * b2CrossVV rA PA
    let vB := (velocities j.indexB).v + j.invMassB • PB
    let wB := (velocities j.indexB).w + j.invIB * b2CrossVV rB PB
    ({ j with
        uA := uA
        uB := uB
        rA := rA
        rB := rB
        mass := mass
        impulse := impulse },
      Function.update (Function.update velocities j.indexA ⟨vA, wA⟩)
        j.indexB ⟨vB, wB⟩)
  else
    ({ j with
        uA := uA
        uB := uB
        rA := rA
        rB := rB
        mass := mass
        impulse := 0 },
      Function.update (Function.update velocities j.indexA
        (velocities j.indexA)) j.indexB (velocities j.indexB))

/-- `b2PositionSolverManifold.Initialize` (`b2_contact_solver.ts`, lines
173-221): recompute the world-space normal, point and separation of one
contact point from the position constraint and the two current
transforms; for `faceB` the normal is negated at the end so it always
points from A to B.  Returns `(normal, point, separation)`. -/
noncomputable def positionSolverManifold (pc : b2ContactPositionConstraint ℝ)
    (xfA xfB : b2Transform ℝ) (index : Fin 2) :
    b2Vec2 ℝ × b2Vec2 ℝ × ℝ :=
  match pc.mtype with
  | b2ManifoldType.e_circles =>
    let pointA := xfA.mulVec pc.localPoint
    let pointB := xfB.mulVec (pc.localPoints 0)
    let normal := (pointB - pointA).normalizeRes.1
    let point := b2Mid pointA pointB
    let separation := b2Dot (pointB - pointA) normal - pc.radiusA
      - pc.radiusB
    (normal, point, separation)
  | b2ManifoldType.e_faceA =>
    let normal := b2Rot.mulVec xfA.q pc.localNormal
    let planePoint := xfA.mulVec pc.localPoint
    let clipPoint := xfB.mulVec (pc.localPoints index)
    let separation := b2Dot (clipPoint - planePoint) normal - pc.radiusA
      - pc.radiusB
    (normal, clipPoint, separation)
  | b2ManifoldType.e_faceB =>
    let normal := b2Rot.mulVec xfB.q pc.localNormal
    let planePoint := xfB.mulVec pc.localPoint
    let clipPoint := xfA.mulVec (pc.localPoints index)
    let separation := b2Dot (clipPoint - planePoint) normal - pc.radiusA
      - pc.radiusB
    (-normal, clipPoint, separation)

/-- State threaded through one contact of the position-correction passes:
the two bodies' centers and angles and the running minimum separation. -/
structure PosSolveState where
  cA : b2Vec2 ℝ
  aA : ℝ
  cB : b2Vec2 ℝ
  aB : ℝ
  minSep : ℝ

/-- One point of a position-correction pass (`b2_contact_solver.ts`, lines
896-929 and identically lines 991-1024 with the TOI masses and factor):
rebuild both transforms from the current centers/angles, recompute the
world manifold, track the minimum separation, clamp the Baumgarte
correction into `[-maxLinearCorrection, 0]`, safely invert the effective
mass `K`, and nudge the centers and angles directly.  `mA iA mB iB` are
the (possibly TOI-masked) inverse masses, `beta` the Baumgarte factor. -/
noncomputable def solvePositionPoint (pc : b2ContactPositionConstraint ℝ)
    (mA iA mB iB beta : ℝ) (j : Fin 2) (s : PosSolveState) :
    PosSolveState :=
  let qA := b2Rot.ofAngle s.aA
  let qB := b2Rot.ofAngle s.aB
  let xfA : b2Transform ℝ := ⟨s.cA - qA.mulVec pc.localCenterA, qA⟩
  let xfB : b2Transform ℝ := ⟨s.cB - qB.mulVec pc.localCenterB, qB⟩
  let psm := positionSolverManifold pc xfA xfB j
  let normal := psm.1
  let point := psm.2.1
  let separation := psm.2.2
  let rA := point - s.cA
  let rB := point - s.cB
  let minSep' := min s.minSep separation
  let C := b2Clamp (beta * (separation + b2_linearSlop))
    (-b2_maxLinearCorrection) 0
  let rnA := b2CrossVV rA normal
  let rnB := b2CrossVV rB normal
  let K := mA + mB + iA * rnA * rnA + iB * rnB * rnB
  let impulse := if 0 < K then -C / K else 0
  let P := impulse • normal
  ⟨s.cA - mA • P, s.aA - iA * b2CrossVV rA P, s.cB + mB • P,
    s.aB + iB * b2CrossVV rB P, minSep'⟩

/-- One contact of `b2ContactSolver.SolvePositionConstraints`
(`b2_contact_solver.ts`, lines 880-936): read the two bodies, run the
per-point correction over all points, and write both bodies back. -/
noncomputable def solvePositionConstraintOne
    (pc : b2ContactPositionConstraint ℝ) (positions : ℕ → b2Position ℝ)
    (minSep : ℝ) : (ℕ → b2Position ℝ) × ℝ :=
  let s0 : PosSolveState := ⟨(positions pc.indexA).c, (positions pc.indexA).a,
    (positions pc.indexB).c, (positions pc.indexB).a, minSep⟩
  let s := (pointsUpTo pc.pointCount).foldl
    (fun s j => solvePositionPoint pc pc.invMassA pc.invIA pc.invMassB
      pc.invIB b2_baumgarte j s) s0
  (Function.update (Function.update positions pc.indexA ⟨s.cA, s.aA⟩)
    pc.indexB ⟨s.cB, s.aB⟩, s.minSep)

/-- The contact loop of `b2ContactSolver.SolvePositionConstraints`,
accumulating the minimum separation across contacts. -/
noncomputable def solvePositionConstraintsList :
    List (b2ContactPositionConstraint ℝ) → (ℕ → b2Position ℝ) → ℝ →
    (ℕ → b2Position ℝ) × ℝ
  | [], positions, minSep => (positions, minSep)
  | pc :: rest, positions, minSep =>
    let r := solvePositionConstraintOne pc positions minSep
    solvePositionConstraintsList rest r.1 r.2

/-- `b2ContactSolver.SolvePositionConstraints` (`b2_contact_solver.ts`,
lines 870-941): one full position-correction pass starting from
`minSeparation = 0`, returning the updated positions and the minimum
separation seen. -/
noncomputable def solvePositionConstraintsRun
    (pcs : List (b2ContactPositionConstraint ℝ))
    (positions : ℕ → b2Position ℝ) : (ℕ → b2Position ℝ) × ℝ :=
  solvePositionConstraintsList pcs positions 0

/-- The boolean result of `b2ContactSolver.SolvePositionConstraints`
(`b2_contact_solver.ts`, line 940): `minSeparation >= -3 *
b2_linearSlop`. -/
noncomputable def solvePositionConstraintsRet
    (pcs : List (b2ContactPositionConstraint ℝ))
    (positions : ℕ → b2Position ℝ) : Prop :=
  -3 * b2_linearSlop ≤ (solvePositionConstraintsRun pcs positions).2

/-- The TOI mask of `b2ContactSolver.SolveTOIPositionConstraints`
(`b2_contact_solver.ts`, lines 970-982): a body keeps its inverse
mass/inertia only when its solver index is one of the two TOI indices. -/
def toiMask {α : Type} [Zero α] (toiIndexA toiIndexB idx : ℕ) (v : α) : α :=
  if idx = toiIndexA ∨ idx = toiIndexB then v else 0

/-- One contact of `b2ContactSolver.SolveTOIPositionConstraints`
(`b2_contact_solver.ts`, lines 965-1029): as the regular pass, with the
TOI Baumgarte factor and the inverse masses masked to zero for bodies
other than the two TOI bodies. -/
noncomputable def solveTOIPositionConstraintOne (toiIndexA toiIndexB : ℕ)
    (pc : b2ContactPositionConstraint ℝ) (positions : ℕ → b2Position ℝ)
    (minSep : ℝ) : (ℕ → b2Position ℝ) × ℝ :=
  let mA := toiMask toiIndexA toiIndexB pc.indexA pc.invMassA
  let iA := toiMask toiIndexA toiIndexB pc.indexA pc.invIA
  let mB := toiMask toiIndexA toiIndexB pc.indexB pc.invMassB
  let iB := toiMask toiIndexA toiIndexB pc.indexB pc.invIB
  let s0 : PosSolveState := ⟨(positions pc.indexA).c, (positions pc.indexA).a,
    (positions pc.indexB).c, (positions pc.indexB).a, minSep⟩
  let s := (pointsUpTo pc.pointCount).foldl
    (fun s j => solvePositionPoint pc mA iA mB iB b2_toiBaumgarte j s) s0
  (Function.update (Function.update positions pc.indexA ⟨s.cA, s.aA⟩)
    pc.indexB ⟨s.cB, s.aB⟩, s.minSep)

/-- The contact loop of `b2ContactSolver.SolveTOIPositionConstraints`. -/
noncomputable def solveTOIPositionConstraintsList (toiIndexA toiIndexB : ℕ) :
    List (b2ContactPositionConstraint ℝ) → (ℕ → b2Position ℝ) → ℝ →
    (ℕ → b2Position ℝ) × ℝ
  | [], positions, minSep => (positions, minSep)
  | pc :: rest, positions, minSep =>
    let r := solveTOIPositionConstraintOne toiIndexA toiIndexB pc positions
      minSep
    solveTOIPositionConstraintsList toiIndexA toiIndexB rest r.1 r.2

/-- `b2ContactSolver.SolveTOIPositionConstraints` (`b2_contact_solver.ts`,
lines 955-1034): the TOI position-correction pass starting from
`minSeparation = 0`. -/
noncomputable def solveTOIPositionConstraintsRun (toiIndexA toiIndexB : ℕ)
    (pcs : List (b2ContactPositionConstraint ℝ))
    (positions : ℕ → b2Position ℝ) : (ℕ → b2Position ℝ) × ℝ :=
  solveTOIPositionConstraintsList toiIndexA toiIndexB pcs positions 0

/-- The boolean result of `b2ContactSolver.SolveTOIPositionConstraints`
(`b2_contact_solver.ts`, line 1033): `minSeparation >= -1.5 *
b2_linearSlop`. -/
noncomputable def solveTOIPositionConstraintsRet (toiIndexA toiIndexB : ℕ)
    (pcs : List (b2ContactPositionConstraint ℝ))
    (positions : ℕ → b2Position ℝ) : Prop :=
  -1.5 * b2_linearSlop ≤
    (solveTOIPositionConstraintsRun toiIndexA toiIndexB pcs positions).2

/-! Concrete inputs used by the closed witness and counterexample
theorems below. -/

/-- All bodies at rest (rational velocity array). -/
def qZeroVel : ℕ → b2Velocity ℚ := fun _ => ⟨⟨0, 0⟩, 0⟩

/-- All bodies at rest (real velocity array). -/
def rZeroVel : ℕ → b2Velocity ℝ := fun _ => ⟨⟨0, 0⟩, 0⟩

/-- All bodies at the origin (real position array). -/
def rZeroPos : ℕ → b2Position ℝ := fun _ => ⟨⟨0, 0⟩, 0⟩

/-- A unit-ratio warm-starting step (rational). -/
def stepQ1 : b2TimeStep ℚ := ⟨1/60, 60, 1, true⟩

/-- A unit-ratio warm-starting step (real). -/
noncomputable def stepR1 : b2TimeStep ℝ := ⟨1/60, 60, 1, true⟩

/-- A wheel joint between bodies 0 and 1 with unit inverse masses and the
standard local axes. -/
def wJ0 : b2WheelJoint :=
  { localAnchorA := ⟨0, 0⟩, localAnchorB := ⟨0, 0⟩, localXAxisA := ⟨1, 0⟩,
    localYAxisA := ⟨0, 1⟩, localCenterA := ⟨0, 0⟩, localCenterB := ⟨0, 0⟩,
    indexA := 0, indexB := 1, invMassA := 1, invMassB := 1, invIA := 0,
    invIB := 0, stiffness := 0, damping := 0, enableLimit := false,
    enableMotor := false, impulse := 0, springImpulse := 0,
    motorImpulse := 0, lowerImpulse := 0, upperImpulse := 0,
    translation := 0, mass := 0, axialMass := 0, springMass := 0,
    motorMass := 0, bias := 0, gamma := 0, ax := ⟨0, 0⟩, ay := ⟨0, 0⟩,
    sAx := 0, sBx := 0, sAy := 0, sBy := 0 }

/-- A single contact point carrying accumulated normal impulse 1, with
unit effective masses and zero arms. -/
def cex2Point : b2VelocityConstraintPoint ℚ :=
  ⟨⟨0, 0⟩, ⟨0, 0⟩, 1, 0, 1, 1, 0⟩

/-- A one-point contact between a static body 0 and a unit-mass body 1,
friction 1, normal `(1,0)`. -/
def cex2VC : b2ContactVelocityConstraint ℚ :=
  { points := fun _ => cex2Point, normal := ⟨1, 0⟩, tangent := ⟨0, -1⟩,
    normalMass := b2Mat22.zero ℚ, K := b2Mat22.zero ℚ, indexA := 0,
    indexB := 1, invMassA := 0, invMassB := 1, invIA := 0, invIB := 0,
    friction := 1, restitution := 0, threshold := 0, tangentSpeed := 0,
    pointCount := 1, contactIndex := 0 }

/-- Body 1 separating fast (`vx = 5`) while sliding (`vy = 1`). -/
def cex2Vels : ℕ → b2Velocity ℚ :=
  fun n => if n = 1 then ⟨⟨5, 1⟩, 0⟩ else ⟨⟨0, 0⟩, 0⟩

/-- The contact record produced for `cex2VC` by one full call of the
velocity pass. -/
def cex2Out : b2ContactVelocityConstraint ℚ :=
  List.getD (solveVelocityConstraintsPass true [cex2VC] cex2Vels).1 0 cex2VC

/-- A two-point contact whose block matrix is well conditioned
(`k11 = 1`, `k22 = 2`, `k12 = 1`). -/
def c3VC : b2ContactVelocityConstraint ℚ :=
  { points := fun jj =>
      if jj = 0 then ⟨⟨0, 0⟩, ⟨0, 0⟩, 0, 0, 0, 0, 0⟩
      else ⟨⟨0, 1⟩, ⟨0, 1⟩, 0, 0, 0, 0, 0⟩,
    normal := ⟨1, 0⟩, tangent := ⟨0, -1⟩, normalMass := b2Mat22.zero ℚ,
    K := b2Mat22.zero ℚ, indexA := 0, indexB := 1, invMassA := 1,
    invMassB := 0, invIA := 1, invIB := 0, friction := 0, restitution := 0,
    threshold := 0, tangentSpeed := 0, pointCount := 2, contactIndex := 0 }

/-- A hard distance joint with coincident anchors (degenerate axis) and
accumulated impulse 1. -/
def dJ0 : b2DistanceJoint ℝ :=
  { stiffness := 0, damping := 0, bias := 0, localAnchorA := ⟨0, 0⟩,
    localAnchorB := ⟨0, 0⟩, gamma := 0, impulse := 1, length := 1,
    indexA := 0, indexB := 1, u := ⟨0, 0⟩, rA := ⟨0, 0⟩, rB := ⟨0, 0⟩,
    localCenterA := ⟨0, 0⟩, localCenterB := ⟨0, 0⟩, invMassA := 1,
    invMassB := 1, invIA := 0, invIB := 0, mass := 0 }

/-- A rope joint with coincident anchors (degenerate axis) and
accumulated impulse 1. -/
def rJ0 : b2RopeJoint ℝ :=
  { localAnchorA := ⟨0, 0⟩, localAnchorB := ⟨0, 0⟩, maxLength := 5,
    length := 0, impulse := 1, indexA := 0, indexB := 1, u := ⟨0, 0⟩,
    rA := ⟨0, 0⟩, rB := ⟨0, 0⟩, localCenterA := ⟨0, 0⟩,
    localCenterB := ⟨0, 0⟩, invMassA := 1, invMassB := 1, invIA := 0,
    invIB := 0, mass := 0 }

/-- A pulley joint whose anchors coincide with both ground anchors
(both axes degenerate), accumulated impulse 1. -/
def pJ0 : b2PulleyJoint ℝ :=
  { groundAnchorA := ⟨0, 0⟩, groundAnchorB := ⟨0, 0⟩, lengthA := 0,
    lengthB := 0, localAnchorA := ⟨0, 0⟩, localAnchorB := ⟨0, 0⟩,
    constant := 0, ratioV := 1, impulse := 1, indexA := 0, indexB := 1,
    uA := ⟨0, 0⟩, uB := ⟨0, 0⟩, rA := ⟨0, 0⟩, rB := ⟨0, 0⟩,
    localCenterA := ⟨0, 0⟩, localCenterB := ⟨0, 0⟩, invMassA := 1,
    invMassB := 1, invIA := 0, invIB := 0, mass := 0 }

/-- A soft distance joint (`stiffness = 1`). -/
def dJ1 : b2DistanceJoint ℝ :=
  { dJ0 with stiffness := 1, damping := 1 }

/-- Pooled records for `initializeConstraint` (previous-session
contents). -/
def qOldVC : b2ContactVelocityConstraint ℚ :=
  { points := fun _ => ⟨⟨0, 0⟩, ⟨0, 0⟩, 0, 0, 0, 0, 0⟩, normal := ⟨0, 0⟩,
    tangent := ⟨0, 0⟩, normalMass := b2Mat22.zero ℚ, K := b2Mat22.zero ℚ,
    indexA := 0, indexB := 0, invMassA := 0, invMassB := 0, invIA := 0,
    invIB := 0, friction := 0, restitution := 0, threshold := 0,
    tangentSpeed := 0, pointCount := 0, contactIndex := 0 }

/-- A pooled position record (previous-session contents). -/
def qOldPC : b2ContactPositionConstraint ℚ :=
  { localPoints := fun _ => ⟨0, 0⟩, localNormal := ⟨0, 0⟩,
    localPoint := ⟨0, 0⟩, indexA := 0, indexB := 0, invMassA := 0,
    invMassB := 0, localCenterA := ⟨0, 0⟩, localCenterB := ⟨0, 0⟩,
    invIA := 0, invIB := 0, mtype := b2ManifoldType.e_circles,
    radiusA := 0, radiusB := 0, pointCount := 0 }

/-- A one-point manifold with accumulated impulses `(2, 3)`. -/
def c5Manifold : b2Manifold ℚ :=
  { mtype := b2ManifoldType.e_circles, localNormal := ⟨1, 0⟩,
    localPoint := ⟨0, 0⟩,
    points := fun _ => ⟨⟨0, 0⟩, 0, 2, 3⟩, pointCount := 1 }

/-- The contact data around `c5Manifold`. -/
def c5CD : b2ContactData ℚ :=
  { friction := 1, restitution := 0, threshold := 1, tangentSpeed := 0,
    indexA := 0, indexB := 1, invMassA := 0, invMassB := 1, invIA := 0,
    invIB := 0, localCenterA := ⟨0, 0⟩, localCenterB := ⟨0, 0⟩,
    radiusA := 1/2, radiusB := 1/2, manifold := c5Manifold }

/-- A one-point solver record holding impulses `(7, 4)` to be stored. -/
def c5VC : b2ContactVelocityConstraint ℚ :=
  { cex2VC with points := fun _ => ⟨⟨0, 0⟩, ⟨0, 0⟩, 7, 4, 0, 0, 0⟩ }

/-- A taut rational rope joint with accumulated impulse 0. -/
def rJQ : b2RopeJoint ℚ :=
  { localAnchorA := ⟨0, 0⟩, localAnchorB := ⟨0, 0⟩, maxLength := 5,
    length := 3, impulse := 0, indexA := 0, indexB := 1, u := ⟨1, 0⟩,
    rA := ⟨0, 0⟩, rB := ⟨0, 0⟩, localCenterA := ⟨0, 0⟩,
    localCenterB := ⟨0, 0⟩, invMassA := 1, invMassB := 1, invIA := 0,
    invIB := 0, mass := 1 }

/-- A one-point contact with nonnegative accumulated impulses for the
normal-impulse invariant. -/
def c10VC : b2ContactVelocityConstraint ℚ :=
  { cex2VC with points := fun _ => ⟨⟨0, 0⟩, ⟨0, 0⟩, 2, 0, 1, 1, 0⟩ }

/-- The standard joint velocity update `v ± invMass·P`, `w ± invI·(r×P)`
for the rope joint with incremental impulse `inc` along the axis `u`
(`b2_rope_joint.ts`, lines 210-222). -/
def ropeApplyIncrement {α : Type} [LinearOrderedField α]
    (j : b2RopeJoint α) (velocities : ℕ → b2Velocity α) (inc : α) :
    ℕ → b2Velocity α :=
  Function.update (Function.update velocities j.indexA
    ⟨(velocities j.indexA).v - j.invMassA • (inc • j.u),
      (velocities j.indexA).w - j.invIA * b2CrossVV j.rA (inc • j.u)⟩)
    j.indexB
    ⟨(velocities j.indexB).v + j.invMassB • (inc • j.u),
      (velocities j.indexB).w + j.invIB * b2CrossVV j.rB (inc • j.u)⟩

/-- The contact record produced for `c10VC` by one full velocity pass at
rest. -/
def c10Out : b2ContactVelocityConstraint ℚ :=
  List.getD (solveVelocityConstraintsPass true [c10VC] qZeroVel).1 0 c10VC

/-! Shared helper lemmas. -/

theorem b2Vec2_add_def {α : Type} [Add α] (a b : b2Vec2 α) :
    a + b = ⟨a.x + b.x, a.y + b.y⟩ := rfl

theorem b2Vec2_sub_def {α : Type} [Sub α] (a b : b2Vec2 α) :
    a - b = ⟨a.x - b.x, a.y - b.y⟩ := rfl

theorem b2Vec2_neg_def {α : Type} [Neg α] (a : b2Vec2 α) :
    -a = ⟨-a.x, -a.y⟩ := rfl

theorem b2Vec2_smul_def {α : Type} [Mul α] (s : α) (a : b2Vec2 α) :
    s • a = ⟨s * a.x, s * a.y⟩ := rfl

theorem safe_inv_zero_nonneg {α : Type} [LinearOrderedField α] (x : α) :
    0 ≤ if 0 < x then 1 / x else 0 := by
  split_ifs with h
  · exact (one_div_pos.mpr h).le
  · exact le_refl 0

theorem safe_inv_zero_eq_zero {α : Type} [LinearOrderedField α] {x : α}
    (h : x ≤ 0) : (if 0 < x then 1 / x else 0) = 0 :=
  if_neg (not_lt.mpr h)

theorem safe_inv_keep_nonneg {α : Type} [LinearOrderedField α] {x : α}
    (hx : 0 ≤ x) : 0 ≤ if 0 < x then 1 / x else x := by
  split_ifs with h
  · exact (one_div_pos.mpr h).le
  · exact hx

theorem safe_inv_keep_eq_zero {α : Type} [LinearOrderedField α] {x : α}
    (h : x ≤ 0) (h' : 0 ≤ x) : (if 0 < x then 1 / x else x) = 0 := by
  rw [if_neg (not_lt.mpr h)]
  exact le_antisymm h h'

theorem abs_b2Clamp_le {α : Type} [LinearOrderedField α] {M : α} (x : α)
    (hM : 0 ≤ M) : |b2Clamp x (-M) M| ≤ M := by
  rw [abs_le]
  constructor
  · exact le_min (le_max_right x (-M)) (neg_le_self hM)
  · exact min_le_right _ M

theorem kDenom_nonneg {α : Type} [LinearOrderedField α]
    {mA mB iA iB : α} (rA rB n : b2Vec2 α) (h1 : 0 ≤ mA) (h2 : 0 ≤ mB)
    (h3 : 0 ≤ iA) (h4 : 0 ≤ iB) : 0 ≤ kDenom mA mB iA iB rA rB n := by
  unfold kDenom
  nlinarith [mul_nonneg h3 (mul_self_nonneg (b2CrossVV rA n)),
    mul_nonneg h4 (mul_self_nonneg (b2CrossVV rB n))]

theorem wheelInitMassDenom_nonneg (j : b2WheelJoint)
    (P : ℕ → b2Position ℝ) (h1 : 0 ≤ j.invMassA) (h2 : 0 ≤ j.invMassB)
    (h3 : 0 ≤ j.invIA) (h4 : 0 ≤ j.invIB) :
    0 ≤ wheelInitMassDenom j P := by
  unfold wheelInitMassDenom
  nlinarith [mul_nonneg h3 (mul_self_nonneg (wheelInitSAy j P)),
    mul_nonneg h4 (mul_self_nonneg (wheelInitSBy j P))]

theorem wheelInitAxialDenom_nonneg (j : b2WheelJoint)
    (P : ℕ → b2Position ℝ) (h1 : 0 ≤ j.invMassA) (h2 : 0 ≤ j.invMassB)
    (h3 : 0 ≤ j.invIA) (h4 : 0 ≤ j.invIB) :
    0 ≤ wheelInitAxialDenom j P := by
  unfold wheelInitAxialDenom
  nlinarith [mul_nonneg h3 (mul_self_nonneg (wheelInitSAx j P)),
    mul_nonneg h4 (mul_self_nonneg (wheelInitSBx j P))]

theorem wheelInit_mass_eq (j : b2WheelJoint) (P : ℕ → b2Position ℝ)
    (V : ℕ → b2Velocity ℝ) (step : b2TimeStep ℝ) :
    (wheelInitVelocityConstraints j P V step).1.mass =
      if 0 < wheelInitMassDenom j P then 1 / wheelInitMassDenom j P
      else wheelInitMassDenom j P := by
  by_cases hw : step.warmStarting <;>
    simp [wheelInitVelocityConstraints, hw]

theorem wheelInit_axialMass_eq (j : b2WheelJoint) (P : ℕ → b2Position ℝ)
    (V : ℕ → b2Velocity ℝ) (step : b2TimeStep ℝ) :
    (wheelInitVelocityConstraints j P V step).1.axialMass =
      if 0 < wheelInitAxialDenom j P then 1 / wheelInitAxialDenom j P
      else 0 := by
  by_cases hw : step.warmStarting <;>
    simp [wheelInitVelocityConstraints, hw]

theorem wheelInit_springMass_nonneg (j : b2WheelJoint)
    (P : ℕ → b2Position ℝ) (V : ℕ → b2Velocity ℝ) (step : b2TimeStep ℝ)
    (h1 : 0 ≤ j.invMassA) (h2 : 0 ≤ j.invMassB) (h3 : 0 ≤ j.invIA)
    (h4 : 0 ≤ j.invIB) (h5 : 0 ≤ j.stiffness) (h6 : 0 ≤ j.damping)
    (h7 : 0 ≤ step.dt) :
    0 ≤ (wheelInitVelocityConstraints j P V step).1.springMass := by
  have hd : 0 ≤ wheelInitAxialDenom j P :=
    wheelInitAxialDenom_nonneg j P h1 h2 h3 h4
  have hg0 : 0 ≤ step.dt * (j.damping + step.dt * j.stiffness) :=
    mul_nonneg h7 (add_nonneg h6 (mul_nonneg h7 h5))
  have hg : 0 ≤ if 0 < step.dt * (j.damping + step.dt * j.stiffness) then
      1 / (step.dt * (j.damping + step.dt * j.stiffness))
      else step.dt * (j.damping + step.dt * j.stiffness) :=
    safe_inv_keep_nonneg hg0
  by_cases hw : step.warmStarting <;>
  · simp only [wheelInitVelocityConstraints, hw, Bool.false_eq_true,
      if_true, if_false, ite_true, ite_false]
    split_ifs with hc h2c
    all_goals simp_all
    all_goals positivity

theorem wheelInit_motorMass_nonneg (j : b2WheelJoint)
    (P : ℕ → b2Position ℝ) (V : ℕ → b2Velocity ℝ) (step : b2TimeStep ℝ)
    (h3 : 0 ≤ j.invIA) (h4 : 0 ≤ j.invIB) :
    0 ≤ (wheelInitVelocityConstraints j P V step).1.motorMass := by
  have hi : 0 ≤ j.invIA + j.invIB := add_nonneg h3 h4
  by_cases hw : step.warmStarting <;>
  · simp only [wheelInitVelocityConstraints, hw, Bool.false_eq_true,
      if_true, if_false, ite_true, ite_false]
    by_cases hm : j.enableMotor <;> simp only [hm, ite_true, ite_false]
    · exact safe_inv_keep_nonneg hi
    · exact le_refl 0

/-- C1: every effective mass computed by the solver is the safe inverse of
its denominator.  Contact points: the normal and tangent masses are
`1/k` when the denominator `k` is positive and `0` otherwise, hence always
nonnegative and zero whenever `k ≤ 0`, for arbitrary geometry (including
zero-length arms).  Wheel joint (with the bodies' nonnegative inverse
masses/inertias and nonnegative spring coefficients and step): the
perpendicular mass, axial mass, spring mass and motor mass are all
nonnegative, and the perpendicular/axial masses are zero whenever their
denominators are not positive. -/
theorem c1_effective_mass_safe_inverse :
    (∀ (normal tangent worldPoint cA cB vA vB : b2Vec2 ℝ)
        (mA mB iA iB wA wB restitution threshold : ℝ)
        (prev : b2VelocityConstraintPoint ℝ),
      0 ≤ (initVelocityConstraintsPoint normal tangent worldPoint cA cB
        mA mB iA iB vA wA vB wB restitution threshold prev).normalMass ∧
      0 ≤ (initVelocityConstraintsPoint normal tangent worldPoint cA cB
        mA mB iA iB vA wA vB wB restitution threshold prev).tangentMass ∧
      (kDenom mA mB iA iB (worldPoint - cA) (worldPoint - cB) normal ≤ 0 →
        (initVelocityConstraintsPoint normal tangent worldPoint cA cB
          mA mB iA iB vA wA vB wB restitution threshold prev).normalMass
          = 0) ∧
      (kDenom mA mB iA iB (worldPoint - cA) (worldPoint - cB) tangent ≤ 0 →
        (initVelocityConstraintsPoint normal tangent worldPoint cA cB
          mA mB iA iB vA wA vB wB restitution threshold prev).tangentMass
          = 0)) ∧
    (∀ (j : b2WheelJoint) (P : ℕ → b2Position ℝ) (V : ℕ → b2Velocity ℝ)
        (step : b2TimeStep ℝ),
      0 ≤ j.invMassA → 0 ≤ j.invMassB → 0 ≤ j.invIA → 0 ≤ j.invIB →
      0 ≤ j.stiffness → 0 ≤ j.damping → 0 ≤ step.dt →
      0 ≤ (wheelInitVelocityConstraints j P V step).1.mass ∧
      0 ≤ (wheelInitVelocityConstraints j P V step).1.axialMass ∧
      0 ≤ (wheelInitVelocityConstraints j P V step).1.springMass ∧
      0 ≤ (wheelInitVelocityConstraints j P V step).1.motorMass ∧
      (wheelInitMassDenom j P ≤ 0 →
        (wheelInitVelocityConstraints j P V step).1.mass = 0) ∧
      (wheelInitAxialDenom j P ≤ 0 →
        (wheelInitVelocityConstraints j P V step).1.axialMass = 0)) := by
  constructor
  · intro normal tangent worldPoint cA cB vA vB mA mB iA iB wA wB
      restitution threshold prev
    refine ⟨?_, ?_, ?_, ?_⟩
    · simp only [initVelocityConstraintsPoint]
      exact safe_inv_zero_nonneg _
    · simp only [initVelocityConstraintsPoint]
      exact safe_inv_zero_nonneg _
    · intro hk
      simp only [initVelocityConstraintsPoint]
      exact safe_inv_zero_eq_zero hk
    · intro hk
      simp only [initVelocityConstraintsPoint]
      exact safe_inv_zero_eq_zero hk
  · intro j P V step h1 h2 h3 h4 h5 h6 h7
    have hmd := wheelInitMassDenom_nonneg j P h1 h2 h3 h4
    have had := wheelInitAxialDenom_nonneg j P h1 h2 h3 h4
    refine ⟨?_, ?_, ?_, ?_, ?_, ?_⟩
    · rw [wheelInit_mass_eq]
      exact safe_inv_keep_nonneg hmd
    · rw [wheelInit_axialMass_eq]
      exact safe_inv_zero_nonneg _
    · exact wheelInit_springMass_nonneg j P V step h1 h2 h3 h4 h5 h6 h7
    · exact wheelInit_motorMass_nonneg j P V step h3 h4
    · intro hk
      rw [wheelInit_mass_eq]
      exact safe_inv_keep_eq_zero hk hmd
    · intro hk
      rw [wheelInit_axialMass_eq]
      exact safe_inv_zero_eq_zero hk

/-- Witness for C1 at a concrete wheel joint with unit inverse masses. -/
theorem c1_effective_mass_safe_inverse_witness :
    (0 ≤ wJ0.invMassA ∧ 0 ≤ wJ0.invMassB ∧ 0 ≤ wJ0.invIA ∧ 0 ≤ wJ0.invIB ∧
      0 ≤ wJ0.stiffness ∧ 0 ≤ wJ0.damping ∧ 0 ≤ stepR1.dt) ∧
    (0 ≤ (wheelInitVelocityConstraints wJ0 rZeroPos rZeroVel stepR1).1.mass ∧
      0 ≤ (wheelInitVelocityConstraints wJ0 rZeroPos rZeroVel
        stepR1).1.axialMass ∧
      0 ≤ (wheelInitVelocityConstraints wJ0 rZeroPos rZeroVel
        stepR1).1.springMass ∧
      0 ≤ (wheelInitVelocityConstraints wJ0 rZeroPos rZeroVel
        stepR1).1.motorMass ∧
      (wheelInitMassDenom wJ0 rZeroPos ≤ 0 →
        (wheelInitVelocityConstraints wJ0 rZeroPos rZeroVel stepR1).1.mass
          = 0) ∧
      (wheelInitAxialDenom wJ0 rZeroPos ≤ 0 →
        (wheelInitVelocityConstraints wJ0 rZeroPos rZeroVel
          stepR1).1.axialMass = 0)) :=
  ⟨by norm_num [wJ0, stepR1],
    c1_effective_mass_safe_inverse.2 wJ0 rZeroPos rZeroVel stepR1
      (by norm_num [wJ0]) (by norm_num [wJ0]) (by norm_num [wJ0])
      (by norm_num [wJ0]) (by norm_num [wJ0]) (by norm_num [wJ0])
      (by norm_num [stepR1])⟩

/-- C3: with exactly two manifold points and the block-solve flag enabled,
the block preparation inverts `K` into `normalMass` if and only if
`k11² < 1000·(k11·k22 − k12²)`, and otherwise forces the contact's point
count to 1 for this step. -/
theorem c3_block_prep_condition {α : Type} [LinearOrderedField α]
    (bs : Bool) (vc : b2ContactVelocityConstraint α)
    (h2 : vc.pointCount = 2) (hbs : bs = true) :
    (((initVelocityConstraintsBlockPrep bs vc).pointCount = 2 ∧
      (initVelocityConstraintsBlockPrep bs vc).K = blockKMat vc ∧
      (initVelocityConstraintsBlockPrep bs vc).normalMass =
        (blockKMat vc).GetInverse) ↔
      blockK11 vc * blockK11 vc <
        1000 * (blockK11 vc * blockK22 vc - blockK12 vc * blockK12 vc)) ∧
    ((initVelocityConstraintsBlockPrep bs vc).pointCount = 1 ↔
      ¬ blockK11 vc * blockK11 vc <
        1000 * (blockK11 vc * blockK22 vc - blockK12 vc * blockK12 vc)) := by
  subst hbs
  simp only [initVelocityConstraintsBlockPrep]
  rw [if_pos ⟨h2, trivial⟩]
  by_cases hcond : blockK11 vc * blockK11 vc <
      1000 * (blockK11 vc * blockK22 vc - blockK12 vc * blockK12 vc)
  · rw [if_pos hcond]
    constructor
    · simp [h2, hcond]
    · simp [h2, hcond]
  · rw [if_neg hcond]
    constructor
    · simp [hcond]
    · simp [hcond]

/-- Witness for C3 at a concrete well-conditioned two-point contact. -/
theorem c3_block_prep_condition_witness :
    (c3VC.pointCount = 2 ∧ (true : Bool) = true) ∧
    ((((initVelocityConstraintsBlockPrep true c3VC).pointCount = 2 ∧
      (initVelocityConstraintsBlockPrep true c3VC).K = blockKMat c3VC ∧
      (initVelocityConstraintsBlockPrep true c3VC).normalMass =
        (blockKMat c3VC).GetInverse) ↔
      blockK11 c3VC * blockK11 c3VC <
        1000 * (blockK11 c3VC * blockK22 c3VC
          - blockK12 c3VC * blockK12 c3VC)) ∧
    ((initVelocityConstraintsBlockPrep true c3VC).pointCount = 1 ↔
      ¬ blockK11 c3VC * blockK11 c3VC <
        1000 * (blockK11 c3VC * blockK22 c3VC
          - blockK12 c3VC * blockK12 c3VC))) :=
  ⟨⟨rfl, rfl⟩, c3_block_prep_condition true c3VC rfl rfl⟩

theorem tangentPoint_nI {α : Type} [LinearOrderedField α]
    (vc : b2ContactVelocityConstraint α) (j : Fin 2) (s : SolveState α)
    (jj : Fin 2) :
    ((solveTangentPoint vc j s).points jj).normalImpulse =
      (s.points jj).normalImpulse := by
  by_cases h : jj = j
  · subst h
    simp [solveTangentPoint]
  · simp [solveTangentPoint, Function.update_noteq h]

theorem tangentFold_nI {α : Type} [LinearOrderedField α]
    (vc : b2ContactVelocityConstraint α) (l : List (Fin 2)) :
    ∀ (s : SolveState α) (jj : Fin 2),
      (((l.foldl (fun s j => solveTangentPoint vc j s) s)).points
        jj).normalImpulse = (s.points jj).normalImpulse := by
  induction l with
  | nil => intro s jj; rfl
  | cons j t ih =>
    intro s jj
    simp only [List.foldl_cons]
    rw [ih, tangentPoint_nI]

theorem tangentPoint_tI_other {α : Type} [LinearOrderedField α]
    (vc : b2ContactVelocityConstraint α) (j : Fin 2) (s : SolveState α)
    {jj : Fin 2} (h : jj ≠ j) :
    ((solveTangentPoint vc j s).points jj).tangentImpulse =
      (s.points jj).tangentImpulse := by
  simp [solveTangentPoint, Function.update_noteq h]

theorem tangentPoint_tI_bound {α : Type} [LinearOrderedField α]
    (vc : b2ContactVelocityConstraint α) (j : Fin 2) (s : SolveState α)
    (hf : 0 ≤ vc.friction) (hn : 0 ≤ (s.points j).normalImpulse) :
    |((solveTangentPoint vc j s).points j).tangentImpulse| ≤
      vc.friction * (s.points j).normalImpulse := by
  simp only [solveTangentPoint, Function.update_same]
  exact abs_b2Clamp_le _ (mul_nonneg hf hn)

theorem normalPoint_tI {α : Type} [LinearOrderedField α]
    (vc : b2ContactVelocityConstraint α) (j : Fin 2) (s : SolveState α)
    (jj : Fin 2) :
    ((solveNormalPoint vc j s).points jj).tangentImpulse =
      (s.points jj).tangentImpulse := by
  by_cases h : jj = j
  · subst h
    simp [solveNormalPoint]
  · simp [solveNormalPoint, Function.update_noteq h]

theorem normalFold_tI {α : Type} [LinearOrderedField α]
    (vc : b2ContactVelocityConstraint α) (l : List (Fin 2)) :
    ∀ (s : SolveState α) (jj : Fin 2),
      (((l.foldl (fun s j => solveNormalPoint vc j s) s)).points
        jj).tangentImpulse = (s.points jj).tangentImpulse := by
  induction l with
  | nil => intro s jj; rfl
  | cons j t ih =>
    intro s jj
    simp only [List.foldl_cons]
    rw [ih, normalPoint_tI]

theorem blockApply_tI {α : Type} [LinearOrderedField α]
    (vc : b2ContactVelocityConstraint α) (s : SolveState α) (x : b2Vec2 α)
    (jj : Fin 2) :
    ((blockApply vc s x).points jj).tangentImpulse =
      (s.points jj).tangentImpulse := by
  fin_cases jj <;> simp [blockApply, Function.update_noteq]

theorem solveNormalBlock_tI {α : Type} [LinearOrderedField α]
    (vc : b2ContactVelocityConstraint α) (s : SolveState α) (jj : Fin 2) :
    ((solveNormalBlock vc s).points jj).tangentImpulse =
      (s.points jj).tangentImpulse := by
  simp only [solveNormalBlock]
  split_ifs <;> first | rfl | rw [blockApply_tI]

theorem normalPhase_tI {α : Type} [LinearOrderedField α] (bs : Bool)
    (vc : b2ContactVelocityConstraint α) (s : SolveState α) (jj : Fin 2) :
    (((if vc.pointCount = 1 ∨ bs = false then
        (pointsUpTo vc.pointCount).foldl
          (fun s j => solveNormalPoint vc j s) s
      else solveNormalBlock vc s)).points jj).tangentImpulse =
      (s.points jj).tangentImpulse := by
  split_ifs
  · rw [normalFold_tI]
  · rw [solveNormalBlock_tI]

theorem solveOne_friction_bound {α : Type} [LinearOrderedField α]
    (bs : Bool) (vc : b2ContactVelocityConstraint α)
    (vels : ℕ → b2Velocity α) (hf : 0 ≤ vc.friction)
    (hn : ∀ jj : Fin 2, 0 ≤ (vc.points jj).normalImpulse) (jj : Fin 2)
    (hjj : jj.val < vc.pointCount) :
    |(((solveOneVelocityConstraint bs vc vels).1).points
        jj).tangentImpulse| ≤
      vc.friction * (vc.points jj).normalImpulse := by
  simp only [solveOneVelocityConstraint]
  rw [normalPhase_tI]
  by_cases hc2 : 2 ≤ vc.pointCount
  · have hl : pointsUpTo vc.pointCount = [0, 1] := by
      simp [pointsUpTo, hc2]
    rw [hl]
    simp only [List.foldl_cons, List.foldl_nil]
    fin_cases jj
    · rw [tangentPoint_tI_other vc 1 _ (by decide)]
      exact tangentPoint_tI_bound vc 0 _ hf (hn 0)
    · have := tangentPoint_tI_bound vc 1
        (solveTangentPoint vc 0
          ⟨vc.points, (vels vc.indexA).v, (vels vc.indexA).w,
            (vels vc.indexB).v, (vels vc.indexB).w⟩) hf
      rw [tangentPoint_nI] at this
      exact this (hn 1)
  · by_cases hc1 : 1 ≤ vc.pointCount
    · have hl : pointsUpTo vc.pointCount = [0] := by
        simp [pointsUpTo, hc2, hc1]
      rw [hl]
      simp only [List.foldl_cons, List.foldl_nil]
      have hj0 : jj = 0 := by
        have : vc.pointCount = 1 := le_antisymm (by omega) hc1
        rw [this] at hjj
        exact Fin.ext (by omega)
      subst hj0
      exact tangentPoint_tI_bound vc 0 _ hf (hn 0)
    · exfalso
      omega

/-- C2 amended: after one full call of `SolveVelocityConstraints`, the
accumulated tangent impulse of every point of every contact (with
nonnegative friction and nonnegative starting normal impulses) is bounded
by `friction` times the normal impulse that was accumulated **when the
friction clamp ran**, i.e. the contact's pre-call normal impulse — not by
the post-call normal impulse, which the subsequent normal solve of the
same pass may have lowered. -/
theorem c2_friction_bound_amended {α : Type} [LinearOrderedField α]
    (bs : Bool) (vcs : List (b2ContactVelocityConstraint α))
    (vels : ℕ → b2Velocity α)
    (h : ∀ vc ∈ vcs, 0 ≤ vc.friction ∧
      ∀ jj : Fin 2, 0 ≤ (vc.points jj).normalImpulse)
    (pr : b2ContactVelocityConstraint α × b2ContactVelocityConstraint α)
    (hpr : pr ∈ List.zip vcs (solveVelocityConstraintsPass bs vcs vels).1)
    (jj : Fin 2) (hjj : jj.val < pr.1.pointCount) :
    |(pr.2.points jj).tangentImpulse| ≤
      pr.1.friction * (pr.1.points jj).normalImpulse := by
  induction vcs generalizing vels with
  | nil => simp [solveVelocityConstraintsPass] at hpr
  | cons vc rest ih =>
    simp only [solveVelocityConstraintsPass, List.zip_cons_cons,
      List.mem_cons] at hpr
    rcases hpr with hpr | hpr
    · subst hpr
      exact solveOne_friction_bound bs vc vels (h vc (by simp)).1
        (h vc (by simp)).2 jj hjj
    · exact ih _ (fun v hv => h v (List.mem_cons_of_mem _ hv)) hpr

set_option maxHeartbeats 2000000 in
/-- C2 counterexample: the claim as stated — the bound against the
**post-call** accumulated normal impulse — fails.  With friction 1 and
starting impulses `(normal, tangent) = (1, 0)`, body B moving with
velocity `(5, 1)`: the friction pass clamps the tangent impulse to `1`
(against the then-current normal impulse 1), after which the normal pass
drops the accumulated normal impulse to `0`, leaving
`|tangentImpulse| = 1 > friction * normalImpulse = 0`. -/
theorem c2_friction_bound_counterexample :
    ¬ (|(cex2Out.points 0).tangentImpulse| ≤
      cex2Out.friction * (cex2Out.points 0).normalImpulse) := by
  norm_num [cex2Out, cex2VC, cex2Point, cex2Vels, solveVelocityConstraintsPass,
    solveOneVelocityConstraint, pointsUpTo, solveTangentPoint, solveNormalPoint,
    solveNormalBlock, blockApply, b2Clamp, b2Dot, b2CrossVV, b2AddCrossSV,
    b2CrossSV, b2Vec2_add_def, b2Vec2_sub_def, b2Vec2_neg_def,
    b2Vec2_smul_def, Function.update]

/-- Witness for the amended C2 at the counterexample contact: the bound
against the pre-call normal impulse does hold there (`1 ≤ 1·1`). -/
theorem c2_friction_bound_amended_witness :
    ((∀ vc ∈ [cex2VC], 0 ≤ vc.friction ∧
        ∀ jj : Fin 2, 0 ≤ (vc.points jj).normalImpulse) ∧
      ((cex2VC, cex2Out) ∈
        List.zip [cex2VC]
          (solveVelocityConstraintsPass true [cex2VC] cex2Vels).1) ∧
      (0 : Fin 2).val < cex2VC.pointCount) ∧
    |(cex2Out.points 0).tangentImpulse| ≤
      cex2VC.friction * (cex2VC.points 0).normalImpulse := by
  have h1 : ∀ vc ∈ [cex2VC], 0 ≤ vc.friction ∧
      ∀ jj : Fin 2, 0 ≤ (vc.points jj).normalImpulse := by
    intro vc hv
    rw [List.mem_singleton] at hv
    subst hv
    exact ⟨by norm_num [cex2VC], fun jj => by norm_num [cex2VC, cex2Point]⟩
  have h2 : (cex2VC, cex2Out) ∈ List.zip [cex2VC]
      (solveVelocityConstraintsPass true [cex2VC] cex2Vels).1 := by
    simp [cex2Out, solveVelocityConstraintsPass, List.getD]
  have h3 : (0 : Fin 2).val < cex2VC.pointCount := by norm_num [cex2VC]
  exact ⟨⟨h1, h2, h3⟩,
    c2_friction_bound_amended true [cex2VC] cex2Vels h1 (cex2VC, cex2Out)
      h2 0 h3⟩

theorem normalPoint_nI_nonneg {α : Type} [LinearOrderedField α]
    (vc : b2ContactVelocityConstraint α) (j : Fin 2) (s : SolveState α)
    (jj : Fin 2) (h : 0 ≤ (s.points jj).normalImpulse) :
    0 ≤ ((solveNormalPoint vc j s).points jj).normalImpulse := by
  by_cases hj : jj = j
  · subst hj
    simp only [solveNormalPoint, Function.update_same]
    exact le_max_right _ 0
  · simpa [solveNormalPoint, Function.update_noteq hj] using h

theorem normalFold_nI_nonneg {α : Type} [LinearOrderedField α]
    (vc : b2ContactVelocityConstraint α) (l : List (Fin 2)) :
    ∀ (s : SolveState α),
      (∀ jj : Fin 2, 0 ≤ (s.points jj).normalImpulse) →
      ∀ jj : Fin 2,
        0 ≤ (((l.foldl (fun s j => solveNormalPoint vc j s) s)).points
          jj).normalImpulse := by
  induction l with
  | nil => intro s h jj; exact h jj
  | cons j t ih =>
    intro s h jj
    simp only [List.foldl_cons]
    exact ih _ (fun jj => normalPoint_nI_nonneg vc j s jj (h jj)) jj

theorem blockApply_nI0 {α : Type} [LinearOrderedField α]
    (vc : b2ContactVelocityConstraint α) (s : SolveState α)
    (x : b2Vec2 α) :
    ((blockApply vc s x).points 0).normalImpulse = x.x := by
  simp [blockApply, Function.update_noteq (show (0 : Fin 2) ≠ 1 by decide)]

theorem blockApply_nI1 {α : Type} [LinearOrderedField α]
    (vc : b2ContactVelocityConstraint α) (s : SolveState α)
    (x : b2Vec2 α) :
    ((blockApply vc s x).points 1).normalImpulse = x.y := by
  simp [blockApply]

theorem blockApply_nI_nonneg {α : Type} [LinearOrderedField α]
    (vc : b2ContactVelocityConstraint α) (s : SolveState α)
    (x : b2Vec2 α) (hx : 0 ≤ x.x) (hy : 0 ≤ x.y) (jj : Fin 2) :
    0 ≤ ((blockApply vc s x).points jj).normalImpulse := by
  fin_cases jj
  · show 0 ≤ ((blockApply vc s x).points 0).normalImpulse
    rw [blockApply_nI0]; exact hx
  · show 0 ≤ ((blockApply vc s x).points 1).normalImpulse
    rw [blockApply_nI1]; exact hy

theorem solveNormalBlock_nI_nonneg {α : Type} [LinearOrderedField α]
    (vc : b2ContactVelocityConstraint α) (s : SolveState α)
    (h : ∀ jj : Fin 2, 0 ≤ (s.points jj).normalImpulse) (jj : Fin 2) :
    0 ≤ ((solveNormalBlock vc s).points jj).normalImpulse := by
  simp only [solveNormalBlock]
  split_ifs with h1 h2 h3 h4
  · exact blockApply_nI_nonneg vc s _ h1.1 h1.2 jj
  · exact blockApply_nI_nonneg vc s _ h2.1 (le_refl 0) jj
  · exact blockApply_nI_nonneg vc s _ (le_refl 0) h3.1 jj
  · exact blockApply_nI_nonneg vc s _ (le_refl 0) (le_refl 0) jj
  · exact h jj

theorem solveOne_nI_nonneg {α : Type} [LinearOrderedField α] (bs : Bool)
    (vc : b2ContactVelocityConstraint α) (vels : ℕ → b2Velocity α)
    (h : ∀ jj : Fin 2, 0 ≤ (vc.points jj).normalImpulse) (jj : Fin 2) :
    0 ≤ (((solveOneVelocityConstraint bs vc vels).1).points
      jj).normalImpulse := by
  simp only [solveOneVelocityConstraint]
  have hs1 : ∀ jj : Fin 2,
      0 ≤ (((pointsUpTo vc.pointCount).foldl
        (fun s j => solveTangentPoint vc j s)
        ⟨vc.points, (vels vc.indexA).v, (vels vc.indexA).w,
          (vels vc.indexB).v, (vels vc.indexB).w⟩).points
        jj).normalImpulse := by
    intro jj
    rw [tangentFold_nI]
    exact h jj
  split_ifs
  · exact normalFold_nI_nonneg vc _ _ hs1 jj
  · exact solveNormalBlock_nI_nonneg vc _ hs1 jj

/-- C10: the accumulated contact normal impulses are nonnegative.
`Initialize` produces nonnegative per-point normal impulses from
nonnegative manifold impulses when `dtRatio ≥ 0`, and one full call of
`SolveVelocityConstraints` preserves nonnegativity of every point's
normal impulse — through the single-point clamp and through every
accepted case of the two-point block solver, whose give-up branch leaves
the impulses unchanged. -/
theorem c10_normal_impulse_nonneg {α : Type} [LinearOrderedField α] :
    (∀ (step : b2TimeStep α) (c : b2ContactData α) (ci : ℕ)
        (oldVc : b2ContactVelocityConstraint α)
        (oldPc : b2ContactPositionConstraint α),
      0 ≤ step.dtRatioV →
      (∀ jj : Fin 2, 0 ≤ (c.manifold.points jj).normalImpulse) →
      ∀ jj : Fin 2, jj.val < c.manifold.pointCount →
        0 ≤ ((initializeConstraint step c ci oldVc
          oldPc).1.points jj).normalImpulse) ∧
    (∀ (bs : Bool) (vcs : List (b2ContactVelocityConstraint α))
        (vels : ℕ → b2Velocity α),
      (∀ vc ∈ vcs, ∀ jj : Fin 2, 0 ≤ (vc.points jj).normalImpulse) →
      ∀ vc' ∈ (solveVelocityConstraintsPass bs vcs vels).1,
        ∀ jj : Fin 2, 0 ≤ (vc'.points jj).normalImpulse) := by
  constructor
  · intro step c ci oldVc oldPc hdt hm jj hjj
    simp only [initializeConstraint, if_pos hjj]
    by_cases hw : step.warmStarting
    · simp only [hw, ite_true]
      exact mul_nonneg hdt (hm jj)
    · simp only [hw, Bool.false_eq_true, ite_false]
      exact le_refl 0
  · intro bs vcs
    induction vcs with
    | nil => intro vels h vc' hv'; simp [solveVelocityConstraintsPass] at hv'
    | cons vc rest ih =>
      intro vels h vc' hv'
      simp only [solveVelocityConstraintsPass, List.mem_cons] at hv'
      rcases hv' with hv' | hv'
      · subst hv'
        exact solveOne_nI_nonneg bs vc vels (h vc (by simp))
      · exact ih _ (fun v hv => h v (List.mem_cons_of_mem _ hv)) vc' hv'

/-- Witness for C10: a one-point manifold with impulses `(2,3)` and a
resting one-point contact with accumulated normal impulse 2. -/
theorem c10_normal_impulse_nonneg_witness :
    ((0 : ℚ) ≤ stepQ1.dtRatioV ∧
      (∀ jj : Fin 2, 0 ≤ (c5CD.manifold.points jj).normalImpulse) ∧
      (0 : Fin 2).val < c5CD.manifold.pointCount ∧
      (∀ vc ∈ [c10VC], ∀ jj : Fin 2,
        0 ≤ (vc.points jj).normalImpulse) ∧
      c10Out ∈ (solveVelocityConstraintsPass true [c10VC] qZeroVel).1) ∧
    (0 ≤ ((initializeConstraint stepQ1 c5CD 0 qOldVC
        qOldPC).1.points 0).normalImpulse ∧
      0 ≤ (c10Out.points 0).normalImpulse) := by
  have h1 : (0 : ℚ) ≤ stepQ1.dtRatioV := by norm_num [stepQ1]
  have h2 : ∀ jj : Fin 2, 0 ≤ (c5CD.manifold.points jj).normalImpulse := by
    intro jj
    norm_num [c5CD, c5Manifold]
  have h3 : (0 : Fin 2).val < c5CD.manifold.pointCount := by
    norm_num [c5CD, c5Manifold]
  have h4 : ∀ vc ∈ [c10VC], ∀ jj : Fin 2,
      0 ≤ (vc.points jj).normalImpulse := by
    intro vc hv jj
    rw [List.mem_singleton] at hv
    subst hv
    norm_num [c10VC, cex2VC]
  have h5 : c10Out ∈ (solveVelocityConstraintsPass true [c10VC]
      qZeroVel).1 := by
    simp [c10Out, solveVelocityConstraintsPass, List.getD]
  exact ⟨⟨h1, h2, h3, h4, h5⟩,
    c10_normal_impulse_nonneg.1 stepQ1 c5CD 0 qOldVC qOldPC h1 h2 0 h3,
    c10_normal_impulse_nonneg.2 true [c10VC] qZeroVel h4 c10Out h5 0⟩

/-- C5: round trip of impulse storage.  After `StoreImpulses` and a fresh
`Initialize` on the same contact with `dtRatio = 1` and warm starting
enabled, every manifold point's starting impulses in the new solver
record equal the values held in the manifold after the store; for the
points the store covered (`j < vc.pointCount`) these are exactly the old
solver record's accumulated impulses. -/
theorem c5_store_initialize_round_trip {α : Type} [LinearOrderedField α]
    (step : b2TimeStep α) (vc : b2ContactVelocityConstraint α)
    (c : b2ContactData α) (ci : ℕ)
    (oldVc : b2ContactVelocityConstraint α)
    (oldPc : b2ContactPositionConstraint α)
    (h1 : step.dtRatioV = 1) (h2 : step.warmStarting = true) (jj : Fin 2)
    (hjm : jj.val < c.manifold.pointCount) :
    (((storeThenInitialize step vc c ci oldVc oldPc).2.points
        jj).normalImpulse =
      ((storeThenInitialize step vc c ci oldVc oldPc).1.points
        jj).normalImpulse ∧
      ((storeThenInitialize step vc c ci oldVc oldPc).2.points
        jj).tangentImpulse =
      ((storeThenInitialize step vc c ci oldVc oldPc).1.points
        jj).tangentImpulse) ∧
    (jj.val < vc.pointCount →
      ((storeThenInitialize step vc c ci oldVc oldPc).2.points
          jj).normalImpulse = (vc.points jj).normalImpulse ∧
      ((storeThenInitialize step vc c ci oldVc oldPc).2.points
          jj).tangentImpulse = (vc.points jj).tangentImpulse) := by
  constructor
  · constructor <;>
      simp [storeThenInitialize, initializeConstraint, storeImpulsesOne,
        h1, h2, hjm]
  · intro hv
    constructor <;>
      simp [storeThenInitialize, initializeConstraint, storeImpulsesOne,
        h1, h2, hjm, hv]

/-- Witness for C5: storing impulses `(7,4)` and re-initializing with
`dtRatio = 1` reproduces them. -/
theorem c5_store_initialize_round_trip_witness :
    (stepQ1.dtRatioV = 1 ∧ stepQ1.warmStarting = true ∧
      (0 : Fin 2).val < c5CD.manifold.pointCount) ∧
    ((((storeThenInitialize stepQ1 c5VC c5CD 0 qOldVC qOldPC).2.points
        0).normalImpulse =
      ((storeThenInitialize stepQ1 c5VC c5CD 0 qOldVC qOldPC).1.points
        0).normalImpulse ∧
      ((storeThenInitialize stepQ1 c5VC c5CD 0 qOldVC qOldPC).2.points
        0).tangentImpulse =
      ((storeThenInitialize stepQ1 c5VC c5CD 0 qOldVC qOldPC).1.points
        0).tangentImpulse) ∧
    ((0 : Fin 2).val < c5VC.pointCount →
      ((storeThenInitialize stepQ1 c5VC c5CD 0 qOldVC qOldPC).2.points
          0).normalImpulse = (c5VC.points 0).normalImpulse ∧
      ((storeThenInitialize stepQ1 c5VC c5CD 0 qOldVC qOldPC).2.points
          0).tangentImpulse = (c5VC.points 0).tangentImpulse)) := by
  have h1 : stepQ1.dtRatioV = 1 := rfl
  have h2 : stepQ1.warmStarting = true := rfl
  have h3 : (0 : Fin 2).val < c5CD.manifold.pointCount := by
    norm_num [c5CD, c5Manifold]
  exact ⟨⟨h1, h2, h3⟩,
    c5_store_initialize_round_trip stepQ1 c5VC c5CD 0 qOldVC qOldPC h1 h2
      0 h3⟩

/-- C6: the rope joint never pushes.  In every call of
`SolveVelocityConstraints` the accumulated impulse is clamped by
`m_impulse = min(0, m_impulse + impulse)`, so (whenever the starting
accumulated impulse is nonpositive) the accumulated impulse stays
nonpositive, and the velocities change exactly by the increment
`newAccumulated − oldAccumulated` applied along the axis. -/
theorem c6_rope_never_pushes {α : Type} [LinearOrderedField α]
    (j : b2RopeJoint α) (velocities : ℕ → b2Velocity α)
    (step : b2TimeStep α) (h : j.impulse ≤ 0) :
    (ropeSolveVelocityConstraints j velocities step).1.impulse ≤ 0 ∧
    (ropeSolveVelocityConstraints j velocities step).2 =
      ropeApplyIncrement j velocities
        ((ropeSolveVelocityConstraints j velocities step).1.impulse
          - j.impulse) := by
  constructor
  · simp only [ropeSolveVelocityConstraints]
    exact min_le_left 0 _
  · rfl

/-- Witness for C6 at a taut rational rope joint at rest. -/
theorem c6_rope_never_pushes_witness :
    rJQ.impulse ≤ 0 ∧
    ((ropeSolveVelocityConstraints rJQ qZeroVel stepQ1).1.impulse ≤ 0 ∧
      (ropeSolveVelocityConstraints rJQ qZeroVel stepQ1).2 =
        ropeApplyIncrement rJQ qZeroVel
          ((ropeSolveVelocityConstraints rJQ qZeroVel stepQ1).1.impulse
            - rJQ.impulse)) :=
  ⟨by norm_num [rJQ],
    c6_rope_never_pushes rJQ qZeroVel stepQ1 (by norm_num [rJQ])⟩

theorem b2Vec2_length_zero : (b2Vec2.zero ℝ).length = 0 := by
  simp [b2Vec2.length, b2Vec2.zero]

/-- C4 amended: on a degenerate constraint axis the three joints behave
differently.  The rope joint (threshold `linearSlop`) zeroes the axis,
the effective mass and the accumulated impulse and leaves the velocities
untouched.  The distance joint (threshold `linearSlop`) and the pulley
joint (threshold `10·linearSlop`, per axis) zero only the axis vector;
under warm starting their accumulated impulse is retained (scaled by
`dtRatio`), not zeroed. -/
theorem c4_degenerate_axis_amended :
    (∀ (j : b2RopeJoint ℝ) (P : ℕ → b2Position ℝ)
        (V : ℕ → b2Velocity ℝ) (step : b2TimeStep ℝ),
      (ropeInitU j P).length ≤ b2_linearSlop →
        (ropeInitVelocityConstraints j P V step).1.u = b2Vec2.zero ℝ ∧
        (ropeInitVelocityConstraints j P V step).1.mass = 0 ∧
        (ropeInitVelocityConstraints j P V step).1.impulse = 0 ∧
        (ropeInitVelocityConstraints j P V step).2 = V) ∧
    (∀ (j : b2DistanceJoint ℝ) (P : ℕ → b2Position ℝ)
        (V : ℕ → b2Velocity ℝ) (step : b2TimeStep ℝ),
      (distanceInitU j P).length ≤ b2_linearSlop →
        (distanceInitVelocityConstraints j P V step).1.u =
          b2Vec2.zero ℝ ∧
        (step.warmStarting = true →
          (distanceInitVelocityConstraints j P V step).1.impulse =
            j.impulse * step.dtRatioV)) ∧
    (∀ (j : b2PulleyJoint ℝ) (P : ℕ → b2Position ℝ)
        (V : ℕ → b2Velocity ℝ) (step : b2TimeStep ℝ),
      ((pulleyInitUA j P).length ≤ 10 * b2_linearSlop →
        (pulleyInitVelocityConstraints j P V step).1.uA =
          b2Vec2.zero ℝ) ∧
      ((pulleyInitUB j P).length ≤ 10 * b2_linearSlop →
        (pulleyInitVelocityConstraints j P V step).1.uB =
          b2Vec2.zero ℝ) ∧
      (step.warmStarting = true →
        (pulleyInitVelocityConstraints j P V step).1.impulse =
          j.impulse * step.dtRatioV)) := by
  refine ⟨?_, ?_, ?_⟩
  · intro j P V step h
    simp [ropeInitVelocityConstraints, if_neg (not_lt.mpr h)]
  · intro j P V step h
    by_cases hw : step.warmStarting <;>
      simp [distanceInitVelocityConstraints, if_neg (not_lt.mpr h), hw]
  · intro j P V step
    refine ⟨?_, ?_, ?_⟩
    · intro h
      by_cases hw : step.warmStarting <;>
        simp [pulleyInitVelocityConstraints, if_neg (not_lt.mpr h), hw]
    · intro h
      by_cases hw : step.warmStarting <;>
        simp [pulleyInitVelocityConstraints, if_neg (not_lt.mpr h), hw]
    · intro hw
      simp [pulleyInitVelocityConstraints, hw]

/-- C4 counterexample: the claim — that a degenerate axis makes the joint
zero the axis **and** the accumulated impulse — is false for the distance
joint.  With coincident anchors (axis length 0 ≤ `linearSlop`), warm
starting and `dtRatio = 1`, the distance joint zeroes the axis but keeps
its accumulated impulse of 1. -/
theorem c4_degenerate_axis_counterexample :
    (distanceInitU dJ0 rZeroPos).length ≤ b2_linearSlop ∧
    (distanceInitVelocityConstraints dJ0 rZeroPos rZeroVel stepR1).1.u =
      b2Vec2.zero ℝ ∧
    (distanceInitVelocityConstraints dJ0 rZeroPos rZeroVel
      stepR1).1.impulse = 1 := by
  have hdu : distanceInitU dJ0 rZeroPos = b2Vec2.zero ℝ := by
    simp [distanceInitU, distanceInitRA, distanceInitRB, dJ0, rZeroPos,
      b2Rot.mulVec, b2Rot.ofAngle, b2Vec2.zero, b2Vec2_add_def,
      b2Vec2_sub_def]
  have hdl : (distanceInitU dJ0 rZeroPos).length = 0 := by
    rw [hdu, b2Vec2_length_zero]
  have hc : ¬ (b2_linearSlop < (distanceInitU dJ0 rZeroPos).length) := by
    rw [hdl]
    norm_num [b2_linearSlop]
  refine ⟨by rw [hdl]; norm_num [b2_linearSlop], ?_, ?_⟩
  · simp [distanceInitVelocityConstraints, hc, stepR1]
  · simp [distanceInitVelocityConstraints, hc, stepR1, dJ0]

/-- Witness for the amended C4 at concrete degenerate rope, distance and
pulley joints: the rope zeroes everything, the distance and pulley joints
keep their warm-started impulse of 1. -/
theorem c4_degenerate_axis_amended_witness :
    ((ropeInitU rJ0 rZeroPos).length ≤ b2_linearSlop ∧
      (distanceInitU dJ0 rZeroPos).length ≤ b2_linearSlop ∧
      (pulleyInitUA pJ0 rZeroPos).length ≤ 10 * b2_linearSlop ∧
      (pulleyInitUB pJ0 rZeroPos).length ≤ 10 * b2_linearSlop ∧
      stepR1.warmStarting = true) ∧
    ((ropeInitVelocityConstraints rJ0 rZeroPos rZeroVel stepR1).1.u =
        b2Vec2.zero ℝ ∧
      (ropeInitVelocityConstraints rJ0 rZeroPos rZeroVel stepR1).1.mass
        = 0 ∧
      (ropeInitVelocityConstraints rJ0 rZeroPos rZeroVel
        stepR1).1.impulse = 0 ∧
      (ropeInitVelocityConstraints rJ0 rZeroPos rZeroVel stepR1).2 =
        rZeroVel) ∧
    ((distanceInitVelocityConstraints dJ0 rZeroPos rZeroVel stepR1).1.u =
        b2Vec2.zero ℝ ∧
      (distanceInitVelocityConstraints dJ0 rZeroPos rZeroVel
        stepR1).1.impulse = dJ0.impulse * stepR1.dtRatioV) ∧
    ((pulleyInitVelocityConstraints pJ0 rZeroPos rZeroVel stepR1).1.uA =
        b2Vec2.zero ℝ ∧
      (pulleyInitVelocityConstraints pJ0 rZeroPos rZeroVel stepR1).1.uB =
        b2Vec2.zero ℝ ∧
      (pulleyInitVelocityConstraints pJ0 rZeroPos rZeroVel
        stepR1).1.impulse = pJ0.impulse * stepR1.dtRatioV) := by
  have hru : ropeInitU rJ0 rZeroPos = b2Vec2.zero ℝ := by
    simp [ropeInitU, ropeInitRA, ropeInitRB, rJ0, rZeroPos, b2Rot.mulVec,
      b2Rot.ofAngle, b2Vec2.zero, b2Vec2_add_def, b2Vec2_sub_def]
  have hdu : distanceInitU dJ0 rZeroPos = b2Vec2.zero ℝ := by
    simp [distanceInitU, distanceInitRA, distanceInitRB, dJ0, rZeroPos,
      b2Rot.mulVec, b2Rot.ofAngle, b2Vec2.zero, b2Vec2_add_def,
      b2Vec2_sub_def]
  have hpa : pulleyInitUA pJ0 rZeroPos = b2Vec2.zero ℝ := by
    simp [pulleyInitUA, pulleyInitRA, pJ0, rZeroPos, b2Rot.mulVec,
      b2Rot.ofAngle, b2Vec2.zero, b2Vec2_add_def, b2Vec2_sub_def]
  have hpb : pulleyInitUB pJ0 rZeroPos = b2Vec2.zero ℝ := by
    simp [pulleyInitUB, pulleyInitRB, pJ0, rZeroPos, b2Rot.mulVec,
      b2Rot.ofAngle, b2Vec2.zero, b2Vec2_add_def, b2Vec2_sub_def]
  have h1 : (ropeInitU rJ0 rZeroPos).length ≤ b2_linearSlop := by
    rw [hru, b2Vec2_length_zero]
    norm_num [b2_linearSlop]
  have h2 : (distanceInitU dJ0 rZeroPos).length ≤ b2_linearSlop := by
    rw [hdu, b2Vec2_length_zero]
    norm_num [b2_linearSlop]
  have h3 : (pulleyInitUA pJ0 rZeroPos).length ≤ 10 * b2_linearSlop := by
    rw [hpa, b2Vec2_length_zero]
    norm_num [b2_linearSlop]
  have h4 : (pulleyInitUB pJ0 rZeroPos).length ≤ 10 * b2_linearSlop := by
    rw [hpb, b2Vec2_length_zero]
    norm_num [b2_linearSlop]
  exact ⟨⟨h1, h2, h3, h4, rfl⟩,
    c4_degenerate_axis_amended.1 rJ0 rZeroPos rZeroVel stepR1 h1,
    ⟨(c4_degenerate_axis_amended.2.1 dJ0 rZeroPos rZeroVel stepR1 h2).1,
      (c4_degenerate_axis_amended.2.1 dJ0 rZeroPos rZeroVel stepR1
        h2).2 rfl⟩,
    ⟨(c4_degenerate_axis_amended.2.2 pJ0 rZeroPos rZeroVel stepR1).1 h3,
      (c4_degenerate_axis_amended.2.2 pJ0 rZeroPos rZeroVel stepR1).2.1 h4,
      (c4_degenerate_axis_amended.2.2 pJ0 rZeroPos rZeroVel
        stepR1).2.2 rfl⟩⟩

/-- C9: a soft distance joint (`stiffness > 0`) performs no position
correction: `SolvePositionConstraints` returns `true` immediately,
leaving the joint state and every entry of the positions array
unchanged. -/
theorem c9_soft_distance_no_position_correction (j : b2DistanceJoint ℝ)
    (positions : ℕ → b2Position ℝ) (h : 0 < j.stiffness) :
    (distanceSolvePositionConstraints j positions).1 = j ∧
    (distanceSolvePositionConstraints j positions).2.1 = positions ∧
    (distanceSolvePositionConstraints j positions).2.2 := by
  simp [distanceSolvePositionConstraints, if_pos h]

/-- Witness for C9 at a soft distance joint with stiffness 1. -/
theorem c9_soft_distance_no_position_correction_witness :
    0 < dJ1.stiffness ∧
    ((distanceSolvePositionConstraints dJ1 rZeroPos).1 = dJ1 ∧
      (distanceSolvePositionConstraints dJ1 rZeroPos).2.1 = rZeroPos ∧
      (distanceSolvePositionConstraints dJ1 rZeroPos).2.2) :=
  ⟨by norm_num [dJ1, dJ0],
    c9_soft_distance_no_position_correction dJ1 rZeroPos
      (by norm_num [dJ1, dJ0])⟩

theorem solvePositionPoint_minSep_le (pc : b2ContactPositionConstraint ℝ)
    (mA iA mB iB beta : ℝ) (j : Fin 2) (s : PosSolveState) :
    (solvePositionPoint pc mA iA mB iB beta j s).minSep ≤ s.minSep := by
  simp only [solvePositionPoint]
  exact min_le_left _ _

theorem posFold_minSep_le (pc : b2ContactPositionConstraint ℝ)
    (mA iA mB iB beta : ℝ) (l : List (Fin 2)) :
    ∀ s : PosSolveState,
      ((l.foldl (fun s j => solvePositionPoint pc mA iA mB iB beta j s)
        s)).minSep ≤ s.minSep := by
  induction l with
  | nil => intro s; exact le_refl _
  | cons j t ih =>
    intro s
    simp only [List.foldl_cons]
    exact (ih _).trans (solvePositionPoint_minSep_le pc mA iA mB iB beta
      j s)

theorem posList_minSep_le (pcs : List (b2ContactPositionConstraint ℝ)) :
    ∀ (positions : ℕ → b2Position ℝ) (m : ℝ),
      (solvePositionConstraintsList pcs positions m).2 ≤ m := by
  induction pcs with
  | nil => intro positions m; exact le_refl m
  | cons pc rest ih =>
    intro positions m
    simp only [solvePositionConstraintsList]
    exact (ih _ _).trans (by
      simp only [solvePositionConstraintOne]
      exact posFold_minSep_le pc _ _ _ _ _ _ _)

theorem toiList_minSep_le (toiIndexA toiIndexB : ℕ)
    (pcs : List (b2ContactPositionConstraint ℝ)) :
    ∀ (positions : ℕ → b2Position ℝ) (m : ℝ),
      (solveTOIPositionConstraintsList toiIndexA toiIndexB pcs positions
        m).2 ≤ m := by
  induction pcs with
  | nil => intro positions m; exact le_refl m
  | cons pc rest ih =>
    intro positions m
    simp only [solveTOIPositionConstraintsList]
    exact (ih _ _).trans (by
      simp only [solveTOIPositionConstraintOne]
      exact posFold_minSep_le pc _ _ _ _ _ _ _)

/-- C7: the position-correction passes return success exactly at the
stated tolerances.  The regular pass succeeds iff the minimum separation
seen is at least `-3·linearSlop`, the TOI pass iff it is at least
`-1.5·linearSlop`; in both passes the tracked minimum starts at 0 and
only decreases, so it is clamped above by 0. -/
theorem c7_position_correction_tolerances
    (pcs : List (b2ContactPositionConstraint ℝ))
    (positions : ℕ → b2Position ℝ) (toiIndexA toiIndexB : ℕ) :
    (solvePositionConstraintsRet pcs positions ↔
      -3 * b2_linearSlop ≤ (solvePositionConstraintsRun pcs positions).2) ∧
    (solvePositionConstraintsRun pcs positions).2 ≤ 0 ∧
    (solveTOIPositionConstraintsRet toiIndexA toiIndexB pcs positions ↔
      -1.5 * b2_linearSlop ≤
        (solveTOIPositionConstraintsRun toiIndexA toiIndexB pcs
          positions).2) ∧
    (solveTOIPositionConstraintsRun toiIndexA toiIndexB pcs
      positions).2 ≤ 0 :=
  ⟨Iff.rfl, posList_minSep_le pcs positions 0, Iff.rfl,
    toiList_minSep_le toiIndexA toiIndexB pcs positions 0⟩

theorem zero_smul_b2Vec2 (v : b2Vec2 ℝ) :
    (0 : ℝ) • v = b2Vec2.zero ℝ := by
  simp [b2Vec2_smul_def, b2Vec2.zero]

theorem b2Vec2_sub_zero (v : b2Vec2 ℝ) : v - b2Vec2.zero ℝ = v := by
  simp [b2Vec2_sub_def, b2Vec2.zero]

theorem b2Vec2_add_zero (v : b2Vec2 ℝ) : v + b2Vec2.zero ℝ = v := by
  simp [b2Vec2_add_def, b2Vec2.zero]

theorem solvePositionPoint_masked_A (pc : b2ContactPositionConstraint ℝ)
    (mB iB beta : ℝ) (j : Fin 2) (s : PosSolveState) :
    (solvePositionPoint pc 0 0 mB iB beta j s).cA = s.cA ∧
    (solvePositionPoint pc 0 0 mB iB beta j s).aA = s.aA := by
  constructor
  · show s.cA - (0 : ℝ) • _ = s.cA
    rw [zero_smul_b2Vec2, b2Vec2_sub_zero]
  · show s.aA - 0 * _ = s.aA
    ring

theorem solvePositionPoint_masked_B (pc : b2ContactPositionConstraint ℝ)
    (mA iA beta : ℝ) (j : Fin 2) (s : PosSolveState) :
    (solvePositionPoint pc mA iA 0 0 beta j s).cB = s.cB ∧
    (solvePositionPoint pc mA iA 0 0 beta j s).aB = s.aB := by
  constructor
  · show s.cB + (0 : ℝ) • _ = s.cB
    rw [zero_smul_b2Vec2, b2Vec2_add_zero]
  · show s.aB + 0 * _ = s.aB
    ring

theorem posFold_masked_A (pc : b2ContactPositionConstraint ℝ)
    (mB iB beta : ℝ) (l : List (Fin 2)) :
    ∀ s : PosSolveState,
      ((l.foldl (fun s j => solvePositionPoint pc 0 0 mB iB beta j s)
        s)).cA = s.cA ∧
      ((l.foldl (fun s j => solvePositionPoint pc 0 0 mB iB beta j s)
        s)).aA = s.aA := by
  induction l with
  | nil => intro s; exact ⟨rfl, rfl⟩
  | cons j t ih =>
    intro s
    simp only [List.foldl_cons]
    refine ⟨?_, ?_⟩
    · rw [(ih _).1, (solvePositionPoint_masked_A pc mB iB beta j s).1]
    · rw [(ih _).2, (solvePositionPoint_masked_A pc mB iB beta j s).2]

theorem posFold_masked_B (pc : b2ContactPositionConstraint ℝ)
    (mA iA beta : ℝ) (l : List (Fin 2)) :
    ∀ s : PosSolveState,
      ((l.foldl (fun s j => solvePositionPoint pc mA iA 0 0 beta j s)
        s)).cB = s.cB ∧
      ((l.foldl (fun s j => solvePositionPoint pc mA iA 0 0 beta j s)
        s)).aB = s.aB := by
  induction l with
  | nil => intro s; exact ⟨rfl, rfl⟩
  | cons j t ih =>
    intro s
    simp only [List.foldl_cons]
    refine ⟨?_, ?_⟩
    · rw [(ih _).1, (solvePositionPoint_masked_B pc mA iA beta j s).1]
    · rw [(ih _).2, (solvePositionPoint_masked_B pc mA iA beta j s).2]

theorem solveTOIOne_preserves_other (toiIndexA toiIndexB : ℕ)
    (pc : b2ContactPositionConstraint ℝ) (positions : ℕ → b2Position ℝ)
    (m : ℝ) (k : ℕ) (hA : k ≠ toiIndexA) (hB : k ≠ toiIndexB) :
    (solveTOIPositionConstraintOne toiIndexA toiIndexB pc positions
      m).1 k = positions k := by
  simp only [solveTOIPositionConstraintOne]
  by_cases hBk : pc.indexB = k
  · have hmB : toiMask toiIndexA toiIndexB pc.indexB pc.invMassB = 0 := by
      rw [hBk]
      simp [toiMask, hA, hB]
    have hiB : toiMask toiIndexA toiIndexB pc.indexB pc.invIB = 0 := by
      rw [hBk]
      simp [toiMask, hA, hB]
    rw [hmB, hiB, hBk, Function.update_same,
      (posFold_masked_B pc _ _ _ _ _).1, (posFold_masked_B pc _ _ _ _ _).2]
  · by_cases hAk : pc.indexA = k
    · have hmA : toiMask toiIndexA toiIndexB pc.indexA pc.invMassA
          = 0 := by
        rw [hAk]
        simp [toiMask, hA, hB]
      have hiA : toiMask toiIndexA toiIndexB pc.indexA pc.invIA = 0 := by
        rw [hAk]
        simp [toiMask, hA, hB]
      rw [hmA, hiA,
        Function.update_noteq (fun h => hBk h.symm), hAk,
        Function.update_same,
        (posFold_masked_A pc _ _ _ _ _).1,
        (posFold_masked_A pc _ _ _ _ _).2]
    · rw [Function.update_noteq (fun h => hBk h.symm),
        Function.update_noteq (fun h => hAk h.symm)]

theorem toiList_preserves_other (toiIndexA toiIndexB : ℕ)
    (pcs : List (b2ContactPositionConstraint ℝ)) (k : ℕ)
    (hA : k ≠ toiIndexA) (hB : k ≠ toiIndexB) :
    ∀ (positions : ℕ → b2Position ℝ) (m : ℝ),
      (solveTOIPositionConstraintsList toiIndexA toiIndexB pcs positions
        m).1 k = positions k := by
  induction pcs with
  | nil => intro positions m; rfl
  | cons pc rest ih =>
    intro positions m
    simp only [solveTOIPositionConstraintsList]
    rw [ih _ _]
    exact solveTOIOne_preserves_other toiIndexA toiIndexB pc positions m
      k hA hB

/-- C8: `SolveTOIPositionConstraints` moves only the two TOI bodies.  Any
body whose solver index is neither TOI index has its position (center and
angle) unchanged by the call, because every contact touching it sees its
inverse mass and inverse inertia masked to zero. -/
theorem c8_toi_moves_only_toi_bodies (toiIndexA toiIndexB : ℕ)
    (pcs : List (b2ContactPositionConstraint ℝ))
    (positions : ℕ → b2Position ℝ) (k : ℕ) (hA : k ≠ toiIndexA)
    (hB : k ≠ toiIndexB) :
    (solveTOIPositionConstraintsRun toiIndexA toiIndexB pcs
      positions).1 k = positions k :=
  toiList_preserves_other toiIndexA toiIndexB pcs k hA hB positions 0

/-- Witness for C8: body 2 is untouched by a TOI pass for bodies 0/1. -/
theorem c8_toi_moves_only_toi_bodies_witness :
    ((2 : ℕ) ≠ 0 ∧ (2 : ℕ) ≠ 1) ∧
    (solveTOIPositionConstraintsRun 0 1 [] rZeroPos).1 2 = rZeroPos 2 :=
  ⟨⟨by decide, by decide⟩,
    c8_toi_moves_only_toi_bodies 0 1 [] rZeroPos 2 (by decide)
      (by decide)⟩
